import Mathlib

/-!
Verification development for the poker_pipeline_v2 repository.

The Python sources (ingest.py, database.py, mappings.py, visualize.py) are
shallowly embedded below. JSON documents become Lean structures whose fields
are `Option`-typed, mirroring `dict.get` returning `None` for an absent key
(a key bound to JSON null and an absent key are conflated, which is faithful
for every field the claims touch). SQLite tables become Lean lists of row
structures; `INSERT OR REPLACE` becomes a filter-then-append keyed update in
which NULL keys never conflict (SQLite treats NULLs as pairwise distinct in
PRIMARY KEY and UNIQUE constraints); a NOT NULL violation becomes an
`Except.error`, and because the Python code only commits at the end of a
call, a call that raises leaves the database unchanged, which the `Except`
monad models directly.
-/

namespace Poker

/-- A roster entry of one hand (`hand["players"][i]` in ingest.py).
The Python key `show` is a Lean keyword, hence `showFlag`;
`hand` (the hole cards) is `holeCards`; `id` and `name` are `pid`/`pname`. -/
structure PlayerEntry where
  pid : Option String
  pname : Option String
  seat : Option Int
  stack : Option Int
  holeCards : List String
  netGain : Option Int
  showFlag : Bool
deriving DecidableEq

/-- An event payload (`event["payload"]` in ingest.py). -/
structure Payload where
  type : Option Int
  turn : Option Int
  cards : List String
  run : Option Int
  seat : Option Int
  pot : Option Int
  value : Option Int
  combination : List String
  handDescription : Option String
  position : Option Int
  runNumber : Option String
  hiLo : Option String
deriving DecidableEq

/-- A hand event (`hand["events"][i]`). The Python key `at` is a Lean
keyword, hence `atTime`. -/
structure EventRec where
  atTime : Option Int
  payload : Payload
deriving DecidableEq

/-- One hand of a session document (`data["hands"][i]`). The Python key
`id` is `hid`, `number` is `number`. -/
structure HandRec where
  hid : Option String
  number : Option Int
  gameType : Option String
  smallBlind : Option Int
  bigBlind : Option Int
  ante : Option Int
  dealerSeat : Option Int
  startedAt : Option Int
  playerNet : Option Int
  players : List PlayerEntry
  events : List EventRec
deriving DecidableEq

/-- A parsed session document (the JSON object loaded by ingest_file). -/
structure Document where
  gameId : Option String
  generatedAt : Option String
  playerId : Option String
  fromCache : Bool
  hands : List HandRec
deriving DecidableEq

/-! ### Database rows (database.py schema)

Columns declared NOT NULL are non-optional field types; inserting a null
there is the `Except.error` path of the ingest functions. Autoincrement
rowid columns of append-only tables are not modeled: no query of the core
reads them. -/

/-- Row of `games`. Its TEXT PRIMARY KEY is nullable in SQLite. -/
structure GameRow where
  id : Option String
  generated_at : Option String
  player_id : Option String
  from_cache : Int
deriving DecidableEq

/-- Row of `hands` (`game_id` is NOT NULL). -/
structure HandRow where
  id : Option String
  game_id : String
  hand_number : Int
  game_type : Option String
  small_blind : Option Int
  big_blind : Option Int
  ante : Option Int
  dealer_seat : Option Int
  started_at : Option Int
  player_net : Option Int
deriving DecidableEq

/-- Row of `players`. -/
structure PlayerRow where
  id : Option String
  name : Option String
deriving DecidableEq

/-- Row of `hand_players` (`hand_id`, `player_id` NOT NULL,
UNIQUE(hand_id, player_id)). -/
structure HandPlayerRow where
  hand_id : String
  player_id : String
  seat : Option Int
  stack : Option Int
  hole_card_1 : Option String
  hole_card_2 : Option String
  net_gain : Option Int
  showed_cards : Int
deriving DecidableEq

/-- Row of `events` (`hand_id` NOT NULL). -/
structure EventRow where
  hand_id : String
  event_time : Option Int
  event_type : Option Int
  seat : Option Int
  value : Option Int
deriving DecidableEq

/-- Row of `community_cards` (`hand_id` NOT NULL). -/
structure CommunityCardRow where
  hand_id : String
  turn : Int
  run : Int
  card_1 : Option String
  card_2 : Option String
  card_3 : Option String
  card_4 : Option String
  card_5 : Option String
deriving DecidableEq

/-- Row of `hand_results` (`hand_id` NOT NULL). -/
structure HandResultRow where
  hand_id : String
  seat : Option Int
  player_id : Option String
  pot : Option Int
  value_won : Option Int
  hole_card_1 : Option String
  hole_card_2 : Option String
  hand_description : Option String
  combination : Option String
  position : Option Int
  run_number : Option String
  hi_lo : Option String
deriving DecidableEq

/-- Row of `canonical_players` (INTEGER PRIMARY KEY, name NOT NULL UNIQUE). -/
structure CanonicalRow where
  id : Int
  name : String
deriving DecidableEq

/-- Row of `player_mappings` (all columns NOT NULL,
UNIQUE(raw_player_id, nickname)). -/
structure MappingRow where
  raw_player_id : String
  nickname : String
  canonical_id : Int
deriving DecidableEq

/-- The whole store created by init_database. -/
structure DB where
  games : List GameRow
  hands : List HandRow
  players : List PlayerRow
  hand_players : List HandPlayerRow
  events : List EventRow
  community_cards : List CommunityCardRow
  hand_results : List HandResultRow
  canonical_players : List CanonicalRow
  player_mappings : List MappingRow
deriving DecidableEq

/-- A freshly initialized store (init_database on a new file). -/
def DB.empty : DB := ⟨[], [], [], [], [], [], [], [], []⟩

/-! ### Keyed upsert (INSERT OR REPLACE)

SQLite resolves an INSERT OR REPLACE conflict by deleting every row that
violates a uniqueness constraint against the new row and then inserting the
new row. NULL key values never conflict with anything, including other
NULLs. -/

/-- Two key values conflict exactly when both are non-null and equal. -/
def keyConflict {κ : Type} [DecidableEq κ] : Option κ → Option κ → Bool
  | some a, some b => decide (a = b)
  | _, _ => false

/-- INSERT OR REPLACE of row `r` into table `t` under key function `key`. -/
def upsertBy {α κ : Type} [DecidableEq κ] (key : α → Option κ) (t : List α) (r : α) :
    List α :=
  t.filter (fun x => !keyConflict (key x) (key r)) ++ [r]

/-- A sequence of INSERT OR REPLACE statements. -/
def upsertAllBy {α κ : Type} [DecidableEq κ] (key : α → Option κ) (t : List α)
    (rs : List α) : List α :=
  rs.foldl (upsertBy key) t

/-! ### ingest.py -/

/-- The summary dict returned by ingest_file. -/
structure IngestStats where
  game_id : Option String
  hands_processed : Nat
  players_added : Nat
  events_added : Nat
  results_added : Nat
deriving DecidableEq

/-- `seat_to_player[seat] = player_id`: Python dict update, keyed on the
seat value (which may be None). -/
def seatMapSet (m : List (Option Int × Option String)) (k : Option Int)
    (v : Option String) : List (Option Int × Option String) :=
  m.filter (fun e => e.1 != k) ++ [(k, v)]

/-- The state threaded through the roster loop of one hand:
store, stats, the `all_players` key set, and `seat_to_player`. -/
structure PlayerLoopState where
  db : DB
  stats : IngestStats
  seen : List (Option String)
  seatMap : List (Option Int × Option String)

/-- One iteration of the roster loop (ingest.py lines 75-105): record the
seat, conditionally insert the `players` row and bump `players_added`, then
insert the `hand_players` row, which needs both keys non-null. -/
def processPlayer (handId : Option String) (st : PlayerLoopState)
    (p : PlayerEntry) : Except String PlayerLoopState :=
  let smap := seatMapSet st.seatMap p.seat p.pid
  let (db1, stats1, seen1) :=
    if p.pid ∈ st.seen then (st.db, st.stats, st.seen)
    else ({st.db with players := upsertBy (fun r => r.id) st.db.players ⟨p.pid, p.pname⟩},
          {st.stats with players_added := st.stats.players_added + 1},
          st.seen ++ [p.pid])
  match handId, p.pid with
  | some h, some pid =>
      .ok ⟨{db1 with hand_players :=
              (upsertBy (fun r => some (r.hand_id, r.player_id)) db1.hand_players
                ⟨h, pid, p.seat, p.stack, p.holeCards[0]?, p.holeCards[1]?,
                 p.netGain, if p.showFlag then 1 else 0⟩)},
            stats1, seen1, smap⟩
  | _, _ => .error "NOT NULL constraint failed: hand_players"

/-- The row built by the community-card branch (event type 9): the card
list is padded so that exactly five slots are stored, the missing ones
null. -/
def mkCCRow (h : String) (p : Payload) : CommunityCardRow :=
  ⟨h, (p.turn).getD 1, (p.run).getD 1,
   p.cards[0]?, p.cards[1]?, p.cards[2]?, p.cards[3]?, p.cards[4]?⟩

/-- The row built by the hand-result branch (event type 10): the seat is
resolved through the hand-scoped seat map (an absent seat, or a seat whose
roster entry had a null id, yields a null player), and the combination list
is joined into one comma-separated field (an empty list stores null). -/
def mkHRRow (h : String) (smap : List (Option Int × Option String))
    (p : Payload) : HandResultRow :=
  ⟨h, p.seat, (smap.lookup p.seat).join, p.pot, p.value,
   p.cards[0]?, p.cards[1]?, p.handDescription,
   if p.combination.isEmpty then none
   else some (String.intercalate "," p.combination),
   p.position, p.runNumber, p.hiLo⟩

/-- The row built by the generic-event branch: raw tag, timestamp, seat and
value preserved. -/
def mkEventRow (h : String) (ev : EventRec) : EventRow :=
  ⟨h, ev.atTime, ev.payload.type, ev.payload.seat, ev.payload.value⟩

/-- One iteration of the event loop (ingest.py lines 110-172), classifying
on the payload type tag: 9 inserts a community-card row, 10 a hand-result
row, anything else a generic event row. All three target tables have a
NOT NULL hand_id. -/
def processEvent (handId : Option String)
    (smap : List (Option Int × Option String)) (acc : DB × IngestStats)
    (ev : EventRec) : Except String (DB × IngestStats) :=
  let (db, stats) := acc
  if ev.payload.type == some 9 then
    match handId with
    | some h => .ok ({db with community_cards :=
                        (db.community_cards ++ [mkCCRow h ev.payload])}, stats)
    | none => .error "NOT NULL constraint failed: community_cards.hand_id"
  else if ev.payload.type == some 10 then
    match handId with
    | some h => .ok ({db with hand_results :=
                        (db.hand_results ++ [mkHRRow h smap ev.payload])},
                     {stats with results_added := stats.results_added + 1})
    | none => .error "NOT NULL constraint failed: hand_results.hand_id"
  else
    match handId with
    | some h => .ok ({db with events := db.events ++ [mkEventRow h ev]},
                     {stats with events_added := stats.events_added + 1})
    | none => .error "NOT NULL constraint failed: events.hand_id"

/-- The `hands` row upserted for one hand (requires the non-null game id). -/
def mkHandRow (g : String) (hand : HandRec) : HandRow :=
  ⟨hand.hid, g, (hand.number).getD 0, hand.gameType, hand.smallBlind,
   hand.bigBlind, hand.ante, hand.dealerSeat, hand.startedAt, hand.playerNet⟩

/-- One iteration of the hand loop (ingest.py lines 51-174): upsert the
hand row (its game_id column is NOT NULL), run the roster loop building the
hand-scoped seat map, run the event loop against that map, then count the
hand as processed. -/
def processHand (gameId : Option String)
    (acc : DB × IngestStats × List (Option String)) (hand : HandRec) :
    Except String (DB × IngestStats × List (Option String)) := do
  let (db, stats, seen) := acc
  match gameId with
  | none => .error "NOT NULL constraint failed: hands.game_id"
  | some g =>
    let db := {db with hands := upsertBy (fun r => r.id) db.hands (mkHandRow g hand)}
    let st ← hand.players.foldlM (processPlayer hand.hid) ⟨db, stats, seen, []⟩
    let (db, stats) ← hand.events.foldlM (processEvent hand.hid st.seatMap)
                        (st.db, st.stats)
    .ok (db, {stats with hands_processed := stats.hands_processed + 1}, st.seen)

/-- The games row upserted first by ingest_file. -/
def mkGameRow (doc : Document) : GameRow :=
  ⟨doc.gameId, doc.generatedAt, doc.playerId, if doc.fromCache then 1 else 0⟩

/-- ingest.py, ingest_file: upsert the games row, then process every hand.
The Python code commits only after the loop, so an error mid-way leaves the
store unchanged, which the `Except` result models: the caller keeps its
original `DB` value. -/
def ingest_file (doc : Document) (db : DB) : Except String (DB × IngestStats) := do
  let stats0 : IngestStats := ⟨doc.gameId, 0, 0, 0, 0⟩
  let db0 := {db with games := upsertBy (fun r => r.id) db.games (mkGameRow doc)}
  let (db1, stats, _) ← doc.hands.foldlM (processHand doc.gameId) (db0, stats0, [])
  .ok (db1, stats)

/-- ingest.py, ingest_directory: ingest every document in order, collecting
the per-document stats. The loop body has no exception handling, so an
error raised by one document propagates and the collected results are
lost, exactly as in the source. -/
def ingest_directory (docs : List Document) (db : DB) :
    Except String (DB × List IngestStats) :=
  docs.foldlM
    (fun (acc : DB × List IngestStats) doc => do
      let (db2, s) ← ingest_file doc acc.1
      .ok (db2, acc.2 ++ [s]))
    (db, [])

/-! ### Characterization of ingest_file

The definitions below restate the effect of a successful ingest_file call
table by table; the theorems `ingest_file_ok` and `ingest_file_err` prove
them equal to the sequential function above. -/

/-- The NOT NULL constraints one hand must satisfy for its inserts to
succeed: a hand with a roster entry or an event needs a hand id (the
hand_players/events/community_cards/hand_results inserts), and every roster
entry needs a player id (the hand_players insert). -/
def handOk (h : HandRec) : Bool :=
  ((h.players.isEmpty && h.events.isEmpty) || h.hid.isSome) &&
    h.players.all (fun p => p.pid.isSome)

/-- Whether ingest_file succeeds on a document: a document with hands needs
a game id (the hands.game_id column is NOT NULL), and every hand must be
`handOk`. -/
def docOk (doc : Document) : Bool :=
  (doc.hands.isEmpty || doc.gameId.isSome) && doc.hands.all handOk

/-- The seat map a hand's roster loop has built when its event loop runs. -/
def buildSeatMap (ps : List PlayerEntry) : List (Option Int × Option String) :=
  ps.foldl (fun m p => seatMapSet m p.seat p.pid) []

/-- The hand_players row inserted for one roster entry (meaningful when the
hand id and player id are non-null, which `handOk` guarantees). -/
def mkHPRow (hid : String) (p : PlayerEntry) : HandPlayerRow :=
  ⟨hid, p.pid.getD "", p.seat, p.stack, p.holeCards[0]?, p.holeCards[1]?,
   p.netGain, if p.showFlag then 1 else 0⟩

/-- The `players` rows a roster sequence inserts, given the ids already in
`all_players`: one row per first occurrence of a fresh id, carrying that
occurrence's nickname, together with the grown id set. -/
def sieveNew : List PlayerEntry → List (Option String) →
    List PlayerRow × List (Option String)
  | [], seen => ([], seen)
  | p :: ps, seen =>
    if p.pid ∈ seen then sieveNew ps seen
    else
      let tail := sieveNew ps (seen ++ [p.pid])
      (⟨p.pid, p.pname⟩ :: tail.1, tail.2)

/-- The generic-event rows of one hand: every event whose type tag is
neither 9 nor 10. -/
def genEventsOfHand (h : HandRec) : List EventRow :=
  (h.events.filter (fun ev =>
    !(ev.payload.type == some 9) && !(ev.payload.type == some 10))).map
    (mkEventRow (h.hid.getD ""))

/-- The community-card rows of one hand: every event with type tag 9. -/
def ccRowsOfHand (h : HandRec) : List CommunityCardRow :=
  (h.events.filter (fun ev => ev.payload.type == some 9)).map
    (fun ev => mkCCRow (h.hid.getD "") ev.payload)

/-- The hand-result rows of one hand: every event with type tag 10,
resolved through the seat map of the complete roster. -/
def hrRowsOfHand (h : HandRec) : List HandResultRow :=
  (h.events.filter (fun ev =>
    !(ev.payload.type == some 9) && ev.payload.type == some 10)).map
    (fun ev => mkHRRow (h.hid.getD "") (buildSeatMap h.players) ev.payload)

/-- All roster entries of a document in processing order. -/
def allPlayersSeq (doc : Document) : List PlayerEntry :=
  doc.hands.flatMap (fun h => h.players)

/-- The `players` rows one ingest_file call writes (`all_players` starts
empty for each call). -/
def docPlayerRows (doc : Document) : List PlayerRow :=
  (sieveNew (allPlayersSeq doc) []).1

/-- The `hands` rows one call upserts. -/
def docHandRows (doc : Document) : List HandRow :=
  doc.hands.map (mkHandRow (doc.gameId.getD ""))

/-- The hand_players rows one call upserts. -/
def docHPRows (doc : Document) : List HandPlayerRow :=
  doc.hands.flatMap (fun h => h.players.map (mkHPRow (h.hid.getD "")))

/-- The event rows one call appends. -/
def docEventRows (doc : Document) : List EventRow :=
  doc.hands.flatMap genEventsOfHand

/-- The community-card rows one call appends. -/
def docCCRows (doc : Document) : List CommunityCardRow :=
  doc.hands.flatMap ccRowsOfHand

/-- The hand-result rows one call appends. -/
def docHRRows (doc : Document) : List HandResultRow :=
  doc.hands.flatMap hrRowsOfHand

/-- The whole-store effect of one successful ingest_file call: keyed
upserts into games/hands/players/hand_players, plain appends into
events/community_cards/hand_results. -/
def applyDoc (doc : Document) (db : DB) : DB :=
  { db with
    games := upsertBy (fun r => r.id) db.games (mkGameRow doc)
    hands := upsertAllBy (fun r => r.id) db.hands (docHandRows doc)
    players := upsertAllBy (fun r => r.id) db.players (docPlayerRows doc)
    hand_players := upsertAllBy (fun r => some (r.hand_id, r.player_id))
      db.hand_players (docHPRows doc)
    events := db.events ++ docEventRows doc
    community_cards := db.community_cards ++ docCCRows doc
    hand_results := db.hand_results ++ docHRRows doc }

/-- The stats dict of one successful ingest_file call. -/
def statsOf (doc : Document) : IngestStats :=
  ⟨doc.gameId, doc.hands.length, (docPlayerRows doc).length,
   (docEventRows doc).length, (docHRRows doc).length⟩

/-- An event payload with every key absent. -/
def payload0 : Payload :=
  ⟨none, none, [], none, none, none, none, [], none, none, none, none⟩

/-- A roster entry with only id, name and seat. -/
def mkPE (pid pname : Option String) (seat : Option Int) : PlayerEntry :=
  ⟨pid, pname, seat, none, [], none, false⟩

/-- A hand with only id, roster and events. -/
def mkHand (hid : Option String) (ps : List PlayerEntry) (evs : List EventRec) :
    HandRec :=
  ⟨hid, none, none, none, none, none, none, none, none, ps, evs⟩

/-- A document with only game id and hands. -/
def mkDoc (g : Option String) (hs : List HandRec) : Document :=
  ⟨g, none, none, false, hs⟩

/-- The worked session of spec section 8: one hand, two seated players,
blinds from both and the pot collected by seat 1. -/
def scenDoc : Document :=
  mkDoc (some "g")
    [mkHand (some "h")
      [mkPE (some "p1") (some "alice") (some 1),
       mkPE (some "p2") (some "bob") (some 2)]
      [⟨some 100, {payload0 with type := some 2, seat := some 1, value := some 5}⟩,
       ⟨some 101, {payload0 with type := some 3, seat := some 2, value := some 2}⟩,
       ⟨some 102, {payload0 with type := some 10, seat := some 1, pot := some 14, value := some 14}⟩]]

deriving instance DecidableEq for Except

/-- Two roster occurrences of one raw player id with different nicknames
(first "X" at seat 1, then "Y" at seat 2). -/
def c5doc : Document :=
  mkDoc (some "g") [mkHand (some "h")
    [mkPE (some "a") (some "X") (some 1), mkPE (some "a") (some "Y") (some 2)] []]

/-- A document whose only roster entry has no player id: its hand_players
insert violates NOT NULL, so ingest_file raises. -/
def badDoc : Document :=
  mkDoc (some "g2") [mkHand (some "h2") [mkPE none (some "noid") (some 1)] []]

/-- Two roster entries sharing seat 1 under different player ids. -/
def sharedSeatDoc : Document :=
  mkDoc (some "g") [mkHand (some "h")
    [mkPE (some "a") none (some 1), mkPE (some "b") none (some 1)] []]

/-! ### mappings.py -/

/-- One alias entry of the YAML source (`alias.get("id")`,
`alias.get("nickname")`). The `id` key is `aid`. -/
structure AliasEntry where
  aid : Option String
  nickname : Option String
deriving DecidableEq

/-- One canonical-player entry of the YAML source: an optional display
name, an optional explicit numeric id, and a list of aliases. -/
structure CanonicalEntry where
  name : Option String
  cid : Option Int
  aliases : List AliasEntry
deriving DecidableEq

/-- The mapping source as load_mappings sees it: the file may be missing,
the parsed YAML may lack the required `canonical_players` key (or be
empty), or it parses to a list of canonical-player entries. -/
inductive MappingSource where
  | missing (path : String)
  | malformed
  | parsed (entries : List CanonicalEntry)
deriving DecidableEq

/-- Python truthiness of an optional string: `if not name` is taken for
both a missing key and an empty string. -/
def truthyS : Option String → Bool
  | some s => !(s == "")
  | none => false

/-- The stats dict built by load_mappings. -/
structure LoadStats where
  canonical_players_added : Nat
  mappings_added : Nat
  errors : List String
deriving DecidableEq

/-- The dict returned by load_mappings: either a dict with an `error` key
(missing file or malformed YAML) or the stats dict. -/
inductive LoadResult where
  | fileError (msg : String)
  | stats (s : LoadStats)
deriving DecidableEq

/-- The rowid SQLite assigns to `INSERT INTO canonical_players (name)`:
one more than the largest rowid currently in the table, 1 when empty. -/
def nextRowId (cs : List CanonicalRow) : Int :=
  (match cs with
   | [] => 0
   | c :: rest => rest.foldl (fun m x => max m x.id) c.id) + 1

/-- The warning string appended when the alias insert hits the
UNIQUE(raw_player_id, nickname) constraint (mappings.py line 88). -/
def dupAliasMsg (r n : String) : String :=
  "Failed to add mapping (" ++ r ++ ", " ++ n ++
    "): UNIQUE constraint failed: player_mappings.raw_player_id, player_mappings.nickname"

/-- One iteration of the alias loop (mappings.py lines 73-88): an alias
missing its raw id or nickname (or carrying an empty string there) is
skipped silently; a duplicate (raw id, nickname) pair makes the INSERT
raise, which the surrounding try/except turns into a warning; otherwise the
mapping row is inserted and counted. -/
def processAlias (cid : Int) (st : DB × LoadStats) (a : AliasEntry) :
    DB × LoadStats :=
  if !(truthyS a.aid) || !(truthyS a.nickname) then st
  else
    let r := a.aid.getD ""
    let n := a.nickname.getD ""
    if st.1.player_mappings.any
        (fun m => m.raw_player_id == r && m.nickname == n) then
      (st.1, {st.2 with errors := st.2.errors ++ [dupAliasMsg r n]})
    else
      ({st.1 with player_mappings := (st.1.player_mappings ++ [⟨r, n, cid⟩])},
       {st.2 with mappings_added := st.2.mappings_added + 1})

/-- One iteration of the canonical-player loop (mappings.py lines 47-88):
an entry without a (truthy) name is skipped with a warning; otherwise the
canonical row is inserted, with the explicit id when one is given and the
next rowid when not. The canonical INSERT is a plain insert outside any
try/except, so a violated PRIMARY KEY or UNIQUE(name) constraint raises
and propagates out of load_mappings. -/
def processEntry (st : DB × LoadStats) (e : CanonicalEntry) :
    Except String (DB × LoadStats) :=
  if !(truthyS e.name) then
    .ok (st.1, {st.2 with errors := (st.2.errors ++ ["Player entry missing 'name' field"])})
  else
    let nm := e.name.getD ""
    let db := st.1
    let withId (i : Int) : Except String (DB × LoadStats) :=
      if db.canonical_players.any (fun c => c.id == i) then
        .error "UNIQUE constraint failed: canonical_players.id"
      else if db.canonical_players.any (fun c => c.name == nm) then
        .error "UNIQUE constraint failed: canonical_players.name"
      else
        .ok (e.aliases.foldl (processAlias i)
          ({db with canonical_players := (db.canonical_players ++ [⟨i, nm⟩])},
           {st.2 with canonical_players_added := st.2.canonical_players_added + 1}))
    match e.cid with
    | some i => withId i
    | none => withId (nextRowId db.canonical_players)

/-- mappings.py, load_mappings: a missing file or a source without the
required top-level key is reported in the returned dict without touching
the store; otherwise both mapping tables are cleared and repopulated from
the source. A raising canonical insert propagates before the final commit,
so the caller's store is unchanged on the error path. -/
def load_mappings (src : MappingSource) (db : DB) :
    Except String (DB × LoadResult) :=
  match src with
  | .missing path => .ok (db, .fileError ("Mapping file not found: " ++ path))
  | .malformed =>
      .ok (db, .fileError "Invalid YAML format: missing 'canonical_players' key")
  | .parsed entries => do
      let db0 := {db with player_mappings := [], canonical_players := []}
      let (db1, stats) ← entries.foldlM processEntry (db0, ⟨0, 0, []⟩)
      .ok (db1, .stats stats)

/-- The join of get_canonical_name over explicit tables: find the alias
row matching the (raw id, nickname) pair, then the canonical row its id
references, and return that row's name. -/
def lookupName (ms : List MappingRow) (cs : List CanonicalRow)
    (pid nickname : String) : Option String :=
  match ms.find? (fun m => m.raw_player_id == pid && m.nickname == nickname) with
  | some m => (cs.find? (fun c => c.id == m.canonical_id)).map (fun c => c.name)
  | none => none

/-- mappings.py, get_canonical_name: join player_mappings with
canonical_players on the (raw id, nickname) pair and return the canonical
name of the first match, None when no alias row matches. -/
def get_canonical_name (db : DB) (pid nickname : String) : Option String :=
  lookupName db.player_mappings db.canonical_players pid nickname

/-- Whether an alias list contains the (raw id, nickname) pair with both
required fields present (empty strings count as missing, mirroring the
Python truthiness test the source applies to required fields). -/
def aliasHit (as : List AliasEntry) (r n : String) : Bool :=
  as.any (fun a => truthyS a.aid && truthyS a.nickname &&
    a.aid == some r && a.nickname == some n)

/-- Whether one canonical entry binds the pair: it must supply a display
name and list the pair as an alias. -/
def entryBinds (e : CanonicalEntry) (r n : String) : Bool :=
  truthyS e.name && aliasHit e.aliases r n

/-- Modelled from the spec (section 4.3): the canonical display name a
mapping source binds to a (raw id, nickname) pair — the name of the first
canonical entry that supplies a display name and lists the pair as an
alias with both required fields present. Entries missing their name are
skipped (their aliases bind nothing), and a pair listed by no named entry
is unmapped. -/
def specCanonicalBinding (entries : List CanonicalEntry) (r n : String) :
    Option String :=
  (entries.find? (fun e => entryBinds e r n)).bind (fun e => e.name)

/-- Every mapping row's canonical id resolves to a canonical row — the
join invariant the mapping loader maintains. -/
def mappingResolvable (db : DB) : Prop :=
  ∀ m ∈ db.player_mappings, ∃ c ∈ db.canonical_players, c.id = m.canonical_id

/-- A small mapping source: one explicit-id entry, one auto-id entry whose
second alias is an empty-id stub that the loader skips silently. -/
def demoEntries : List CanonicalEntry :=
  [⟨some "Alice", some 1, [⟨some "a1", some "Lenny"⟩]⟩,
   ⟨some "Bob", none, [⟨some "b1", some "BobCat"⟩, ⟨some "", some "x"⟩]⟩]

/-- The store demoEntries loads into an empty store. -/
def demoDB : DB :=
  {DB.empty with
    canonical_players := [⟨1, "Alice"⟩, ⟨2, "Bob"⟩],
    player_mappings := [⟨"a1", "Lenny", 1⟩, ⟨"b1", "BobCat", 2⟩]}

/-- Two canonical entries sharing one display name: the second INSERT
violates the UNIQUE(name) constraint outside any try/except. -/
def dupNameEntries : List CanonicalEntry :=
  [⟨some "P", none, []⟩, ⟨some "P", none, []⟩]

/-! ### visualize.py, get_player_statistics -/

/-- One result row of get_player_statistics. The SQL also selects
AVG(net_gain); that column is the quotient of `total_profit` by the group
row count and is read by no claim, so it is not materialized here. The
final ORDER BY total_profit DESC only permutes rows and is likewise
dropped; every theorem below about this query is order-insensitive or
fixes the order by computation. -/
structure StatRow where
  key : String
  name : Option String
  hands_played : Nat
  total_profit : Option Int
  hands_won : Nat
  showdowns : Nat
  games_played : Nat
deriving DecidableEq

/-- The FROM/JOIN core shared by both query modes:
players INNER JOIN hand_players ON p.id = hp.player_id INNER JOIN hands ON
hp.hand_id = h.id. A NULL p.id joins nothing. -/
def baseRows (db : DB) : List (PlayerRow × HandPlayerRow × HandRow) :=
  db.players.flatMap (fun p =>
    (db.hand_players.filter (fun hp => p.id == some hp.player_id)).flatMap (fun hp =>
      (db.hands.filter (fun h => h.id == some hp.hand_id)).map (fun h => (p, hp, h))))

/-- The LEFT JOIN pair player_mappings/canonical_players: the canonical row
reached from a players row via an alias row matching both its id and its
name, when both joins succeed. -/
def mappedCanonical (db : DB) (p : PlayerRow) : Option CanonicalRow :=
  match db.player_mappings.find?
      (fun pm => p.id == some pm.raw_player_id && p.name == some pm.nickname) with
  | some pm => db.canonical_players.find? (fun c => c.id == pm.canonical_id)
  | none => none

/-- The enriched grouping key:
COALESCE('canonical_' || CAST(cp.id AS TEXT), p.id). -/
def enrichedKey (db : DB) (p : PlayerRow) : Option String :=
  match mappedCanonical db p with
  | some c => some ("canonical_" ++ toString c.id)
  | none => p.id

/-- The displayed name: COALESCE(cp.name, p.name) in enriched mode, p.name
in raw mode. -/
def displayName (db : DB) (useEnriched : Bool) (p : PlayerRow) : Option String :=
  if useEnriched then
    match mappedCanonical db p with
    | some c => some c.name
    | none => p.name
  else p.name

/-- SQL SUM over a group: NULL inputs are ignored; an all-NULL group sums
to NULL. -/
def sqlSumInt (l : List (Option Int)) : Option Int :=
  if l.all (fun x => x.isNone) then none
  else some ((l.map (fun x => x.getD 0)).sum)

/-- The grouping key of one joined row in the selected mode (never NULL:
p.id is non-null on every joined row). -/
def rowKey (db : DB) (useEnriched : Bool)
    (r : PlayerRow × HandPlayerRow × HandRow) : String :=
  if useEnriched then (enrichedKey db r.1).getD "" else r.1.id.getD ""

/-- The aggregates of the group of joined rows sharing key `k`. -/
def statsForKey (db : DB) (useEnriched : Bool)
    (rows : List (PlayerRow × HandPlayerRow × HandRow)) (k : String) : StatRow :=
  let grp := rows.filter (fun r => rowKey db useEnriched r == k)
  { key := k
    name := (grp.head?.map (fun r => displayName db useEnriched r.1)).join
    hands_played := ((grp.map (fun r => r.2.1.hand_id)).dedup).length
    total_profit := sqlSumInt (grp.map (fun r => r.2.1.net_gain))
    hands_won := (grp.filter (fun r => 0 < (r.2.1.net_gain).getD 0)).length
    showdowns := (grp.filter (fun r => r.2.1.showed_cards == 1)).length
    games_played := ((grp.map (fun r => r.2.2.game_id)).dedup).length }

/-- visualize.py, get_player_statistics: join, group by the resolved key
(enriched mode) or the raw player id (raw mode), aggregate, and apply the
HAVING COUNT(DISTINCT h.game_id) >= min_games filter after grouping when
min_games is positive. -/
def get_player_statistics (db : DB) (useEnriched : Bool) (minGames : Nat) :
    List StatRow :=
  let rows := baseRows db
  let res := ((rows.map (rowKey db useEnriched)).dedup).map
    (statsForKey db useEnriched rows)
  if 0 < minGames then res.filter (fun s => minGames ≤ s.games_played) else res

/-- The store of one real player holding two mapped raw identities:
identity `a` (nickname `n1`) participates in the hands `h1s`, identity `b`
(nickname `n2`) in `h2s`; both aliases are bound to canonical player `c`
named `nm`; every hand belongs to session `g` and every participation has
net gain 1. -/
def twoIdentityDB (a b n1 n2 : String) (c : Int) (nm g : String)
    (h1s h2s : List String) : DB :=
  { games := [⟨some g, none, none, 0⟩]
    hands := ((h1s ++ h2s).dedup).map (fun h =>
      ⟨some h, g, 0, none, none, none, none, none, none, none⟩)
    players := [⟨some a, some n1⟩, ⟨some b, some n2⟩]
    hand_players := ((h1s.map (fun h =>
        (⟨h, a, none, none, none, none, some 1, 0⟩ : HandPlayerRow))) ++
      (h2s.map (fun h =>
        (⟨h, b, none, none, none, none, some 1, 0⟩ : HandPlayerRow))))
    events := []
    community_cards := []
    hand_results := []
    canonical_players := [⟨c, nm⟩]
    player_mappings := [⟨a, n1, c⟩, ⟨b, n2, c⟩] }

/-! ### Theorems -/

/-- Sanity check: ingesting the empty document succeeds and writes one
games row with a NULL id. -/
example : ingest_file ⟨none, none, none, false, []⟩ DB.empty =
    .ok ({DB.empty with games := [⟨none, none, none, 0⟩]}, ⟨none, 0, 0, 0, 0⟩) := rfl

/-- Sanity check: the worked session writes one hand, two participants,
two events and one hand result crediting the pot to the collector. -/
example :
    (ingest_file scenDoc DB.empty).map (fun x =>
      (x.1.hands.length, x.1.hand_players.length, x.1.events.length,
       x.1.hand_results.map (fun r => (r.player_id, r.pot)), x.2.players_added)) =
    .ok (1, 2, 2, [(some "p1", some 14)], 2) := by rfl

/-- Sanity check: the characterization agrees with the step-by-step model
on the worked session. -/
example : ingest_file scenDoc DB.empty = .ok (applyDoc scenDoc DB.empty, statsOf scenDoc) := by decide

/-- Sanity check: raw statistics over the worked session give each player
one hand played. -/
example :
    (match ingest_file scenDoc DB.empty with
     | .ok (d, _) => get_player_statistics d false 0 |>.map (fun s => (s.key, s.hands_played))
     | .error _ => []) = [("p1", 1), ("p2", 1)] := by decide
/-! ### Upsert algebra -/

/-- The rows of an insert sequence that survive all later inserts of the
same sequence: a row survives when its key is null or no later row carries
a conflicting key. -/
def sieveLast {α κ : Type} [DecidableEq κ] (key : α → Option κ) : List α → List α
  | [] => []
  | r :: rs =>
    if rs.any (fun x => keyConflict (key r) (key x)) then sieveLast key rs
    else r :: sieveLast key rs

theorem keyConflict_self {κ : Type} [DecidableEq κ] (k : Option κ)
    (h : k.isSome) : keyConflict k k = true := by
  cases k with
  | none => simp at h
  | some a => simp [keyConflict]

theorem mem_of_mem_sieveLast {α κ : Type} [DecidableEq κ] {key : α → Option κ}
    {rs : List α} {x : α} (h : x ∈ sieveLast key rs) : x ∈ rs := by
  induction rs with
  | nil => simp [sieveLast] at h
  | cons r rs ih =>
    by_cases hc : rs.any (fun y => keyConflict (key r) (key y)) = true
    · simp only [sieveLast, hc, if_true] at h
      exact List.mem_cons_of_mem _ (ih h)
    · simp only [sieveLast, hc, if_false] at h
      rcases List.mem_cons.mp h with h | h
      · exact h ▸ List.mem_cons_self _ _
      · exact List.mem_cons_of_mem _ (ih h)

/-- Normal form of an upsert sequence: the old rows not keyed by the new
ones, then the last-keyed new rows. -/
theorem upsertAllBy_eq {α κ : Type} [DecidableEq κ] (key : α → Option κ)
    (t rs : List α) :
    upsertAllBy key t rs =
      t.filter (fun x => !(rs.any (fun r => keyConflict (key x) (key r)))) ++
        sieveLast key rs := by
  induction rs generalizing t with
  | nil => simp [upsertAllBy, sieveLast]
  | cons r rs ih =>
    have h1 : upsertAllBy key t (r :: rs) = upsertAllBy key (upsertBy key t r) rs := rfl
    rw [h1, ih, upsertBy, List.filter_append, List.filter_filter,
      List.append_assoc]
    simp only [List.any_cons, Bool.not_or, sieveLast]
    by_cases hc : rs.any (fun x => keyConflict (key r) (key x)) = true
    · simp [hc, Bool.and_comm]
    · simp [hc, Bool.and_comm]

theorem sieveLast_eq_self {α κ : Type} [DecidableEq κ] (key : α → Option κ)
    (rs : List α) (h : (rs.map key).Nodup) : sieveLast key rs = rs := by
  induction rs with
  | nil => rfl
  | cons r rs ih =>
    rw [List.map_cons, List.nodup_cons] at h
    have hc : rs.any (fun x => keyConflict (key r) (key x)) = false := by
      rw [List.any_eq_false]
      intro x hx hcf
      cases hk : key r with
      | none => rw [hk] at hcf; simp [keyConflict] at hcf
      | some a =>
        cases hk2 : key x with
        | none => rw [hk, hk2] at hcf; simp [keyConflict] at hcf
        | some b =>
          rw [hk, hk2] at hcf
          simp only [keyConflict, decide_eq_true_eq] at hcf
          have hm : key r ∈ rs.map key := by
            rw [hk, hcf, ← hk2]
            exact List.mem_map_of_mem key hx
          exact h.1 hm
    rw [sieveLast, hc]
    simp [ih h.2]

theorem upsertAllBy_twice_length {α κ : Type} [DecidableEq κ] (key : α → Option κ)
    (t rs : List α) (h : ∀ r ∈ rs, (key r).isSome) :
    (upsertAllBy key (upsertAllBy key t rs) rs).length =
      (upsertAllBy key t rs).length := by
  rw [upsertAllBy_eq key t rs, upsertAllBy_eq key _ rs, List.filter_append,
    List.filter_filter]
  have h2 : (sieveLast key rs).filter
      (fun x => !(rs.any (fun r => keyConflict (key x) (key r)))) = [] := by
    rw [List.filter_eq_nil_iff]
    intro a ha
    have hmem : a ∈ rs := mem_of_mem_sieveLast ha
    simp only [Bool.not_eq_true, Bool.not_eq_false']
    rw [List.any_eq_true]
    exact ⟨a, hmem, keyConflict_self _ (h a hmem)⟩
  rw [h2]
  have h3 : ∀ x, ((!(rs.any (fun r => keyConflict (key x) (key r)))) &&
      (!(rs.any (fun r => keyConflict (key x) (key r))))) =
      (!(rs.any (fun r => keyConflict (key x) (key r)))) := by
    intro x; exact Bool.and_self _
  simp [h3]

/-! ### Sieve (first-occurrence) lemmas -/

theorem sieveNew_append (xs ys : List PlayerEntry) (seen : List (Option String)) :
    sieveNew (xs ++ ys) seen =
      ((sieveNew xs seen).1 ++ (sieveNew ys (sieveNew xs seen).2).1,
       (sieveNew ys (sieveNew xs seen).2).2) := by
  induction xs generalizing seen with
  | nil => simp [sieveNew]
  | cons p ps ih =>
    by_cases hp : p.pid ∈ seen
    · simp [sieveNew, hp, ih]
    · simp [sieveNew, hp, ih]

theorem sieveNew_ids_isSome (ps : List PlayerEntry) (seen : List (Option String))
    (h : ∀ p ∈ ps, p.pid.isSome) :
    ∀ r ∈ (sieveNew ps seen).1, r.id.isSome := by
  induction ps generalizing seen with
  | nil => intro r hr; simp [sieveNew] at hr
  | cons p ps ih =>
    intro r hr
    by_cases hp : p.pid ∈ seen
    · rw [sieveNew, if_pos hp] at hr
      exact ih _ (fun q hq => h q (List.mem_cons_of_mem _ hq)) r hr
    · rw [sieveNew, if_neg hp] at hr
      rcases List.mem_cons.mp hr with h1 | h1
      · rw [h1]; exact h p (List.mem_cons_self _ _)
      · exact ih _ (fun q hq => h q (List.mem_cons_of_mem _ hq)) r h1

/-- The rows written for fresh ids have pairwise distinct ids, none of them
already seen. -/
theorem sieveNew_ids_nodup (ps : List PlayerEntry) (seen : List (Option String)) :
    ((sieveNew ps seen).1.map (fun r => r.id)).Nodup ∧
      ∀ r ∈ (sieveNew ps seen).1, r.id ∉ seen := by
  induction ps generalizing seen with
  | nil => simp [sieveNew]
  | cons p ps ih =>
    by_cases hp : p.pid ∈ seen
    · rw [sieveNew, if_pos hp]
      exact ih seen
    · rw [sieveNew, if_neg hp]
      obtain ⟨ih1, ih2⟩ := ih (seen ++ [p.pid])
      refine ⟨?_, ?_⟩
      · rw [List.map_cons, List.nodup_cons]
        refine ⟨?_, ih1⟩
        intro hmem
        rcases List.mem_map.mp hmem with ⟨r, hr, hid⟩
        exact ih2 r hr (hid ▸ List.mem_append_right _ (List.mem_singleton.mpr rfl))
      · intro r hr
        rcases List.mem_cons.mp hr with h1 | h1
        · rw [h1]; exact hp
        · intro hmem
          exact ih2 r h1 (List.mem_append_left _ hmem)

/-! ### Loop characterization lemmas for ingest_file -/

theorem exceptBind_ok {ε α β : Type} (a : α) (f : α → Except ε β) :
    (Except.ok a >>= f) = f a := rfl

theorem exceptPure {ε α : Type} (a : α) : (pure a : Except ε α) = Except.ok a := rfl

/-- The event loop of a hand with a non-null id always succeeds, appending
the classified rows and bumping the two counters. -/
theorem eventsLoop_ok (evs : List EventRec) (h : String)
    (smap : List (Option Int × Option String)) (db : DB) (stats : IngestStats) :
    evs.foldlM (processEvent (some h) smap) (db, stats) =
      .ok ({db with
              events := (db.events ++ (evs.filter (fun ev =>
                !(ev.payload.type == some 9) && !(ev.payload.type == some 10))).map
                (mkEventRow h)),
              community_cards := (db.community_cards ++ (evs.filter (fun ev =>
                ev.payload.type == some 9)).map (fun ev => mkCCRow h ev.payload)),
              hand_results := (db.hand_results ++ (evs.filter (fun ev =>
                !(ev.payload.type == some 9) && ev.payload.type == some 10)).map
                (fun ev => mkHRRow h smap ev.payload))},
            {stats with
              events_added := (stats.events_added + (evs.filter (fun ev =>
                !(ev.payload.type == some 9) && !(ev.payload.type == some 10))).length),
              results_added := (stats.results_added + (evs.filter (fun ev =>
                !(ev.payload.type == some 9) && ev.payload.type == some 10)).length)}) := by
  induction evs generalizing db stats with
  | nil =>
    simp only [List.foldlM_nil, List.filter_nil, List.map_nil, List.append_nil,
      List.length_nil]
    rfl
  | cons ev evs ih =>
    rw [List.foldlM_cons]
    cases h9 : ev.payload.type == some 9 with
    | true =>
      rw [show processEvent (some h) smap (db, stats) ev =
          .ok ({db with community_cards :=
                  (db.community_cards ++ [mkCCRow h ev.payload])}, stats) from by
        simp [processEvent, h9]]
      rw [exceptBind_ok, ih]
      simp [List.filter_cons, h9, List.append_assoc]
    | false =>
      cases h10 : ev.payload.type == some 10 with
      | true =>
        rw [show processEvent (some h) smap (db, stats) ev =
            .ok ({db with hand_results :=
                    (db.hand_results ++ [mkHRRow h smap ev.payload])},
                 {stats with results_added := stats.results_added + 1}) from by
          simp [processEvent, h9, h10]]
        rw [exceptBind_ok, ih]
        simp only [List.filter_cons, h9, h10, Bool.not_false, Bool.true_and,
          Bool.not_true, Bool.false_and, Bool.and_false, Bool.and_true,
          if_true, if_false, cond_true, cond_false, List.map_cons,
          List.length_cons, List.append_assoc, List.singleton_append,
          decide_True, decide_False, ite_true, ite_false]
        refine congrArg Except.ok (Prod.ext ?_ ?_) <;> simp <;> omega
      | false =>
        rw [show processEvent (some h) smap (db, stats) ev =
            .ok ({db with events := (db.events ++ [mkEventRow h ev])},
                 {stats with events_added := stats.events_added + 1}) from by
          simp [processEvent, h9, h10]]
        rw [exceptBind_ok, ih]
        simp only [List.filter_cons, h9, h10, Bool.not_false, Bool.true_and,
          Bool.not_true, Bool.false_and, Bool.and_false, Bool.and_true,
          List.map_cons, List.length_cons, List.append_assoc,
          List.singleton_append]
        refine congrArg Except.ok (Prod.ext ?_ ?_) <;> simp <;> omega

/-- The roster loop with a non-null hand id succeeds when every roster
entry has a player id, upserting one players row per fresh id and one
hand_players row per entry, and growing the seat map left to right. -/
theorem playersLoop_ok (ps : List PlayerEntry) (hid : String) (db : DB)
    (stats : IngestStats) (seen : List (Option String))
    (smap : List (Option Int × Option String))
    (hp : ∀ p ∈ ps, p.pid.isSome) :
    ps.foldlM (processPlayer (some hid)) ⟨db, stats, seen, smap⟩ =
      .ok ⟨{db with
              players := upsertAllBy (fun r => r.id) db.players (sieveNew ps seen).1,
              hand_players := upsertAllBy (fun r => some (r.hand_id, r.player_id))
                db.hand_players (ps.map (mkHPRow hid))},
            {stats with players_added :=
              (stats.players_added + (sieveNew ps seen).1.length)},
            (sieveNew ps seen).2,
            ps.foldl (fun m p => seatMapSet m p.seat p.pid) smap⟩ := by
  induction ps generalizing db stats seen smap with
  | nil =>
    simp only [List.foldlM_nil, sieveNew, upsertAllBy, List.map_nil,
      List.foldl_nil, List.length_nil, Nat.add_zero]
    rfl
  | cons p ps ih =>
    rw [List.foldlM_cons]
    cases hpid : p.pid with
    | none =>
      have := hp p (List.mem_cons_self _ _)
      rw [hpid] at this
      simp at this
    | some pid =>
      by_cases hmem : p.pid ∈ seen
      · have hmem2 : (some pid : Option String) ∈ seen := by rw [← hpid]; exact hmem
        rw [show processPlayer (some hid) ⟨db, stats, seen, smap⟩ p =
            .ok ⟨{db with hand_players :=
                    (upsertBy (fun r => some (r.hand_id, r.player_id))
                      db.hand_players (mkHPRow hid p))},
                  stats, seen, seatMapSet smap p.seat p.pid⟩ from by
          simp [processPlayer, hpid, hmem2, mkHPRow]]
        rw [exceptBind_ok, ih _ _ _ _ (fun q hq => hp q (List.mem_cons_of_mem _ hq))]
        simp only [sieveNew]
        rw [if_pos hmem]
        rfl
      · have hmem2 : ¬((some pid : Option String) ∈ seen) := by rw [← hpid]; exact hmem
        rw [show processPlayer (some hid) ⟨db, stats, seen, smap⟩ p =
            .ok ⟨{db with
                    players := (upsertBy (fun r => r.id) db.players ⟨p.pid, p.pname⟩),
                    hand_players := (upsertBy (fun r => some (r.hand_id, r.player_id))
                      db.hand_players (mkHPRow hid p))},
                  {stats with players_added := stats.players_added + 1},
                  seen ++ [p.pid], seatMapSet smap p.seat p.pid⟩ from by
          simp [processPlayer, hpid, hmem2, mkHPRow]]
        rw [exceptBind_ok, ih _ _ _ _ (fun q hq => hp q (List.mem_cons_of_mem _ hq))]
        simp only [sieveNew]
        rw [if_neg hmem]
        rw [show stats.players_added + 1 +
              (sieveNew ps (seen ++ [p.pid])).1.length =
            stats.players_added +
              ((sieveNew ps (seen ++ [p.pid])).1.length + 1) from by omega]
        rfl

/-- With a null hand id, the first roster entry already fails the
hand_players insert. -/
theorem playersLoop_err_none (p : PlayerEntry) (ps : List PlayerEntry)
    (st : PlayerLoopState) :
    ∃ e, (p :: ps).foldlM (processPlayer none) st = .error e := by
  rw [List.foldlM_cons]
  cases hpid : p.pid with
  | none =>
    exact ⟨"NOT NULL constraint failed: hand_players", by
      rw [show processPlayer none st p = .error "NOT NULL constraint failed: hand_players"
        from by simp [processPlayer, hpid]]
      rfl⟩
  | some pid =>
    exact ⟨"NOT NULL constraint failed: hand_players", by
      rw [show processPlayer none st p = .error "NOT NULL constraint failed: hand_players"
        from by simp [processPlayer, hpid]]
      rfl⟩

/-- A roster entry without a player id fails the hand_players insert, so
the roster loop errors whenever one is present. -/
theorem playersLoop_err_nopid (hid : String) (ps : List PlayerEntry)
    (st : PlayerLoopState) (h : ∃ p ∈ ps, p.pid = none) :
    ∃ e, ps.foldlM (processPlayer (some hid)) st = .error e := by
  induction ps generalizing st with
  | nil => simp at h
  | cons q qs ih =>
    rw [List.foldlM_cons]
    cases hq : q.pid with
    | none =>
      exact ⟨"NOT NULL constraint failed: hand_players", by
        rw [show processPlayer (some hid) st q =
            .error "NOT NULL constraint failed: hand_players" from by
          simp [processPlayer, hq]]
        rfl⟩
    | some pid =>
      have h2 : ∃ p ∈ qs, p.pid = none := by
        rcases h with ⟨p, hp1, hp2⟩
        rcases List.mem_cons.mp hp1 with h3 | h3
        · rw [h3, hq] at hp2; simp at hp2
        · exact ⟨p, h3, hp2⟩
      by_cases hmem : q.pid ∈ st.seen
      · have hmem2 : (some pid : Option String) ∈ st.seen := by rw [← hq]; exact hmem
        rw [show processPlayer (some hid) st q =
            .ok ⟨{st.db with hand_players :=
                    (upsertBy (fun r => some (r.hand_id, r.player_id))
                      st.db.hand_players (mkHPRow hid q))},
                  st.stats, st.seen, seatMapSet st.seatMap q.seat q.pid⟩ from by
          simp [processPlayer, hq, hmem2, mkHPRow]]
        rw [exceptBind_ok]
        exact ih _ h2
      · have hmem2 : ¬((some pid : Option String) ∈ st.seen) := by rw [← hq]; exact hmem
        rw [show processPlayer (some hid) st q =
            .ok ⟨{st.db with
                    players := (upsertBy (fun r => r.id) st.db.players ⟨q.pid, q.pname⟩),
                    hand_players := (upsertBy (fun r => some (r.hand_id, r.player_id))
                      st.db.hand_players (mkHPRow hid q))},
                  {st.stats with players_added := st.stats.players_added + 1},
                  st.seen ++ [q.pid], seatMapSet st.seatMap q.seat q.pid⟩ from by
          simp [processPlayer, hq, hmem2, mkHPRow]]
        rw [exceptBind_ok]
        exact ih _ h2

/-- With a null hand id, the first event already fails its insert. -/
theorem eventsLoop_err_none (ev : EventRec) (evs : List EventRec)
    (smap : List (Option Int × Option String)) (acc : DB × IngestStats) :
    ∃ e, (ev :: evs).foldlM (processEvent none smap) acc = .error e := by
  rw [List.foldlM_cons]
  cases h9 : ev.payload.type == some 9 with
  | true =>
    exact ⟨"NOT NULL constraint failed: community_cards.hand_id", by
      rw [show processEvent none smap acc ev =
          .error "NOT NULL constraint failed: community_cards.hand_id" from by
        simp [processEvent, h9]]
      rfl⟩
  | false =>
    cases h10 : ev.payload.type == some 10 with
    | true =>
      exact ⟨"NOT NULL constraint failed: hand_results.hand_id", by
        rw [show processEvent none smap acc ev =
            .error "NOT NULL constraint failed: hand_results.hand_id" from by
          simp [processEvent, h9, h10]]
        rfl⟩
    | false =>
      exact ⟨"NOT NULL constraint failed: events.hand_id", by
        rw [show processEvent none smap acc ev =
            .error "NOT NULL constraint failed: events.hand_id" from by
          simp [processEvent, h9, h10]]
        rfl⟩

theorem exceptBind_err {ε α β : Type} (e : ε) (f : α → Except ε β) :
    (Except.error e >>= f) = Except.error e := rfl

/-- One hand that satisfies its NOT NULL constraints is processed into the
per-table effects of the characterization definitions. -/
theorem processHand_ok (g : String) (h : HandRec) (db : DB) (stats : IngestStats)
    (seen : List (Option String)) (hok : handOk h = true) :
    processHand (some g) (db, stats, seen) h =
      .ok ({db with
              hands := upsertBy (fun r => r.id) db.hands (mkHandRow g h),
              players := upsertAllBy (fun r => r.id) db.players (sieveNew h.players seen).1,
              hand_players := upsertAllBy (fun r => some (r.hand_id, r.player_id))
                db.hand_players (h.players.map (mkHPRow (h.hid.getD ""))),
              events := (db.events ++ genEventsOfHand h),
              community_cards := (db.community_cards ++ ccRowsOfHand h),
              hand_results := (db.hand_results ++ hrRowsOfHand h)},
            {stats with
              hands_processed := stats.hands_processed + 1,
              players_added := (stats.players_added + (sieveNew h.players seen).1.length),
              events_added := (stats.events_added + (genEventsOfHand h).length),
              results_added := (stats.results_added + (hrRowsOfHand h).length)},
            (sieveNew h.players seen).2) := by
  cases hhid : h.hid with
  | some hid =>
    have hp : ∀ p ∈ h.players, p.pid.isSome = true := by
      rw [handOk, Bool.and_eq_true] at hok
      exact fun p hp => List.all_eq_true.mp hok.2 p hp
    simp only [processHand]
    rw [hhid, playersLoop_ok h.players hid _ _ _ _ hp, exceptBind_ok,
      eventsLoop_ok, exceptBind_ok]
    simp only [genEventsOfHand, ccRowsOfHand, hrRowsOfHand, buildSeatMap,
      hhid, Option.getD_some, List.length_map]
  | none =>
    have hpe : h.players = [] ∧ h.events = [] := by
      rw [handOk, Bool.and_eq_true, Bool.or_eq_true] at hok
      rcases hok.1 with h1 | h1
      · rw [Bool.and_eq_true] at h1
        exact ⟨List.isEmpty_iff.mp h1.1, List.isEmpty_iff.mp h1.2⟩
      · rw [hhid] at h1; simp at h1
    simp only [processHand]
    rw [hhid, hpe.1, hpe.2]
    simp only [List.foldlM_nil, exceptPure, exceptBind_ok, genEventsOfHand,
      ccRowsOfHand, hrRowsOfHand, hpe.2, List.filter_nil, List.map_nil,
      List.append_nil, List.length_nil, Nat.add_zero, sieveNew, upsertAllBy,
      List.foldl_nil]

/-- With a null game id the hands insert fails at once. -/
theorem processHand_err_nogid (acc : DB × IngestStats × List (Option String))
    (hand : HandRec) :
    processHand none acc hand = .error "NOT NULL constraint failed: hands.game_id" := rfl

/-- A hand violating its NOT NULL constraints makes processHand fail. -/
theorem processHand_err_bad (g : String) (hand : HandRec)
    (acc : DB × IngestStats × List (Option String)) (hbad : handOk hand = false) :
    ∃ e, processHand (some g) acc hand = .error e := by
  obtain ⟨db, stats, seen⟩ := acc
  simp only [processHand]
  cases hhid : hand.hid with
  | some hid =>
    have hnp : ∃ p ∈ hand.players, p.pid = none := by
      rw [handOk, Bool.and_eq_false_iff] at hbad
      rcases hbad with h1 | h1
      · rw [Bool.or_eq_false_iff] at h1
        rw [hhid] at h1; simp at h1
      · rcases List.all_eq_false.mp h1 with ⟨p, hp1, hp2⟩
        exact ⟨p, hp1, by simpa using hp2⟩
    obtain ⟨e, he⟩ := playersLoop_err_nopid hid hand.players
      ⟨{db with hands := upsertBy (fun r => r.id) db.hands (mkHandRow g hand)},
       stats, seen, []⟩ hnp
    exact ⟨e, by rw [he]; rfl⟩
  | none =>
    cases hps : hand.players with
    | cons p ps =>
      obtain ⟨e, he⟩ := playersLoop_err_none p ps
        ⟨{db with hands := upsertBy (fun r => r.id) db.hands (mkHandRow g hand)},
         stats, seen, []⟩
      exact ⟨e, by rw [he]; rfl⟩
    | nil =>
      cases hev : hand.events with
      | nil =>
        rw [handOk, hps, hev, hhid] at hbad
        simp at hbad
      | cons ev evs =>
        obtain ⟨e, he⟩ := eventsLoop_err_none ev evs []
          ({db with hands := upsertBy (fun r => r.id) db.hands (mkHandRow g hand)},
           stats)
        refine ⟨e, ?_⟩
        simp only [List.foldlM_nil, exceptPure, exceptBind_ok]
        rw [he]
        rfl

theorem upsertAllBy_append {α κ : Type} [DecidableEq κ] (key : α → Option κ)
    (t rs ss : List α) :
    upsertAllBy key t (rs ++ ss) = upsertAllBy key (upsertAllBy key t rs) ss :=
  List.foldl_append _ _ _ _

theorem ingestStats_ext {a b : IngestStats} (h1 : a.game_id = b.game_id)
    (h2 : a.hands_processed = b.hands_processed)
    (h3 : a.players_added = b.players_added)
    (h4 : a.events_added = b.events_added)
    (h5 : a.results_added = b.results_added) : a = b := by
  cases a; cases b; simp_all

/-- The hand loop over a list of well-formed hands accumulates the
per-hand effects. -/
theorem handsLoop_ok (hs : List HandRec) (g : String) (db : DB)
    (stats : IngestStats) (seen : List (Option String))
    (hok : hs.all handOk = true) :
    hs.foldlM (processHand (some g)) (db, stats, seen) =
      .ok ({db with
              hands := upsertAllBy (fun r => r.id) db.hands (hs.map (mkHandRow g)),
              players := upsertAllBy (fun r => r.id) db.players
                (sieveNew (hs.flatMap (fun h => h.players)) seen).1,
              hand_players := upsertAllBy (fun r => some (r.hand_id, r.player_id))
                db.hand_players
                (hs.flatMap (fun h => h.players.map (mkHPRow (h.hid.getD "")))),
              events := (db.events ++ hs.flatMap genEventsOfHand),
              community_cards := (db.community_cards ++ hs.flatMap ccRowsOfHand),
              hand_results := (db.hand_results ++ hs.flatMap hrRowsOfHand)},
            {stats with
              hands_processed := (stats.hands_processed + hs.length),
              players_added := (stats.players_added +
                (sieveNew (hs.flatMap (fun h => h.players)) seen).1.length),
              events_added := (stats.events_added +
                (hs.flatMap genEventsOfHand).length),
              results_added := (stats.results_added +
                (hs.flatMap hrRowsOfHand).length)},
            (sieveNew (hs.flatMap (fun h => h.players)) seen).2) := by
  induction hs generalizing db stats seen with
  | nil =>
    simp only [List.foldlM_nil, List.map_nil, List.flatMap_nil, upsertAllBy,
      List.foldl_nil, sieveNew, List.append_nil, List.length_nil, Nat.add_zero]
    rfl
  | cons hd tl ih =>
    rw [List.all_cons, Bool.and_eq_true] at hok
    rw [List.foldlM_cons, processHand_ok g hd db stats seen hok.1, exceptBind_ok,
      ih _ _ _ hok.2]
    simp only [List.flatMap_cons, List.map_cons, sieveNew_append,
      upsertAllBy_append, List.append_assoc, List.length_append,
      List.length_cons]
    simp only [Nat.add_assoc]
    rw [Nat.add_comm 1 tl.length]
    rfl

/-- The hand loop errors as soon as one hand is malformed. -/
theorem handsLoop_err (hs : List HandRec) (g : String)
    (acc : DB × IngestStats × List (Option String))
    (h : ∃ x ∈ hs, handOk x = false) :
    ∃ e, hs.foldlM (processHand (some g)) acc = .error e := by
  induction hs generalizing acc with
  | nil => simp at h
  | cons hd tl ih =>
    rw [List.foldlM_cons]
    cases hok : handOk hd with
    | false =>
      obtain ⟨e, he⟩ := processHand_err_bad g hd acc hok
      exact ⟨e, by rw [he]; rfl⟩
    | true =>
      have h2 : ∃ x ∈ tl, handOk x = false := by
        rcases h with ⟨x, hx1, hx2⟩
        rcases List.mem_cons.mp hx1 with h3 | h3
        · rw [h3, hok] at hx2; simp at hx2
        · exact ⟨x, h3, hx2⟩
      obtain ⟨db, stats, seen⟩ := acc
      rw [processHand_ok g hd db stats seen hok, exceptBind_ok]
      exact ih _ h2

/-- A well-formed document ingests to exactly the characterized store and
stats. -/
theorem ingest_file_ok (doc : Document) (db : DB) (hok : docOk doc = true) :
    ingest_file doc db = .ok (applyDoc doc db, statsOf doc) := by
  cases hg : doc.gameId with
  | some g =>
    have hhs : doc.hands.all handOk = true := by
      rw [docOk, Bool.and_eq_true] at hok
      exact hok.2
    simp only [ingest_file]
    rw [hg, handsLoop_ok doc.hands g _ _ _ hhs, exceptBind_ok]
    simp only [applyDoc, statsOf, docHandRows, docPlayerRows, docHPRows,
      docEventRows, docCCRows, docHRRows, allPlayersSeq, hg, Option.getD_some,
      Nat.zero_add]
  | none =>
    have hnil : doc.hands = [] := by
      rw [docOk, Bool.and_eq_true, Bool.or_eq_true, hg] at hok
      rcases hok.1 with h1 | h1
      · exact List.isEmpty_iff.mp h1
      · simp at h1
    simp only [ingest_file, hnil, List.foldlM_nil, exceptPure, exceptBind_ok]
    simp only [applyDoc, statsOf, docHandRows, docPlayerRows, docHPRows,
      docEventRows, docCCRows, docHRRows, allPlayersSeq, hnil,
      List.map_nil, List.flatMap_nil, upsertAllBy, List.foldl_nil, sieveNew,
      List.append_nil, List.length_nil]

/-- A malformed document makes ingest_file raise. -/
theorem ingest_file_err (doc : Document) (db : DB) (hok : docOk doc = false) :
    ∃ e, ingest_file doc db = .error e := by
  cases hg : doc.gameId with
  | none =>
    cases hhs : doc.hands with
    | nil => rw [docOk, hg, hhs] at hok; simp at hok
    | cons hd tl =>
      refine ⟨"NOT NULL constraint failed: hands.game_id", ?_⟩
      simp only [ingest_file, hg, hhs, List.foldlM_cons]
      rw [processHand_err_nogid]
      rfl
  | some g =>
    have hbad : ∃ x ∈ doc.hands, handOk x = false := by
      rw [docOk, Bool.and_eq_false_iff] at hok
      rcases hok with h1 | h1
      · rw [Bool.or_eq_false_iff, hg] at h1; simp at h1
      · rcases List.all_eq_false.mp h1 with ⟨x, hx1, hx2⟩
        exact ⟨x, hx1, by simpa using hx2⟩
    obtain ⟨e, he⟩ := handsLoop_err doc.hands g
      ({db with games := upsertBy (fun r => r.id) db.games (mkGameRow doc)},
       ⟨doc.gameId, 0, 0, 0, 0⟩, []) hbad
    refine ⟨e, ?_⟩
    simp only [ingest_file]
    rw [hg] at he ⊢
    rw [he]
    rfl

/-- Success of ingest_file depends only on the document. -/
theorem ingest_ok_docOk (doc : Document) (db : DB) (x : DB × IngestStats)
    (h : ingest_file doc db = .ok x) : docOk doc = true := by
  cases hq : docOk doc with
  | true => rfl
  | false =>
    obtain ⟨e, he⟩ := ingest_file_err doc db hq
    rw [h] at he
    exact absurd he (by simp)

/-- A successful ingest is exactly the characterized effect. -/
theorem ingest_ok_elim (doc : Document) (db : DB) (db2 : DB) (s : IngestStats)
    (h : ingest_file doc db = .ok (db2, s)) :
    db2 = applyDoc doc db ∧ s = statsOf doc := by
  have hq := ingest_ok_docOk doc db _ h
  rw [ingest_file_ok doc db hq] at h
  have h2 := Except.ok.inj h
  exact ⟨(congrArg Prod.fst h2).symm, (congrArg Prod.snd h2).symm⟩

/-- Every roster entry of a well-formed document carries a player id. -/
theorem docOk_pids (doc : Document) (hok : docOk doc = true) :
    ∀ p ∈ allPlayersSeq doc, p.pid.isSome = true := by
  intro p hp
  rw [allPlayersSeq, List.mem_flatMap] at hp
  obtain ⟨h, hh, hph⟩ := hp
  rw [docOk, Bool.and_eq_true] at hok
  have := List.all_eq_true.mp hok.2 h hh
  rw [handOk, Bool.and_eq_true] at this
  exact List.all_eq_true.mp this.2 p hph

/-- C1, amended: re-ingesting an identical document whose session id and
hand ids are all present leaves the four upserted row counts unchanged and
doubles the three appended row counts (from an empty store). -/
theorem c1_reingest_counts (doc : Document) (db1 : DB) (s1 : IngestStats)
    (hg : doc.gameId.isSome = true)
    (hh : ∀ h ∈ doc.hands, h.hid.isSome = true)
    (h1 : ingest_file doc DB.empty = .ok (db1, s1)) :
    ∃ db2 s2, ingest_file doc db1 = .ok (db2, s2) ∧
      db2.games.length = db1.games.length ∧
      db2.hands.length = db1.hands.length ∧
      db2.players.length = db1.players.length ∧
      db2.hand_players.length = db1.hand_players.length ∧
      db2.events.length = 2 * db1.events.length ∧
      db2.community_cards.length = 2 * db1.community_cards.length ∧
      db2.hand_results.length = 2 * db1.hand_results.length := by
  have hok := ingest_ok_docOk doc DB.empty _ h1
  obtain ⟨hdb1, -⟩ := ingest_ok_elim doc DB.empty db1 s1 h1
  refine ⟨applyDoc doc db1, statsOf doc, ingest_file_ok doc db1 hok,
    ?_, ?_, ?_, ?_, ?_, ?_, ?_⟩
  all_goals rw [hdb1]
  · exact upsertAllBy_twice_length (fun r : GameRow => r.id) DB.empty.games
      [mkGameRow doc]
      (by intro r hr; rw [List.mem_singleton] at hr; subst hr; exact hg)
  · exact upsertAllBy_twice_length (fun r : HandRow => r.id) DB.empty.hands
      (docHandRows doc)
      (by intro r hr
          rw [docHandRows, List.mem_map] at hr
          obtain ⟨h, hmem, hr2⟩ := hr
          subst hr2
          exact hh h hmem)
  · exact upsertAllBy_twice_length (fun r : PlayerRow => r.id) DB.empty.players
      (docPlayerRows doc)
      (sieveNew_ids_isSome _ [] (docOk_pids doc hok))
  · exact upsertAllBy_twice_length
      (fun r : HandPlayerRow => some (r.hand_id, r.player_id))
      DB.empty.hand_players (docHPRows doc) (fun r _ => rfl)
  · simp [applyDoc, DB.empty]; omega
  · simp [applyDoc, DB.empty]; omega
  · simp [applyDoc, DB.empty]; omega

/-- An upsert keyed by a total key function preserves distinctness of the
keys. -/
theorem upsertBy_keys_nodup {α κ : Type} [DecidableEq κ] (keyf : α → κ)
    (t : List α) (r : α) (h : (t.map keyf).Nodup) :
    ((upsertBy (fun x => some (keyf x)) t r).map keyf).Nodup := by
  rw [upsertBy, List.map_append]
  refine List.Nodup.append ?_ (by simp) ?_
  · exact List.Nodup.sublist (List.Sublist.map keyf (List.filter_sublist t)) h
  · intro a ha hb
    rw [List.map_singleton, List.mem_singleton] at hb
    subst hb
    rcases List.mem_map.mp ha with ⟨x, hx, hkx⟩
    have h2 := (List.mem_filter.mp hx).2
    have h3 : ¬(keyf x = keyf r) := by
      simp only [keyConflict] at h2
      simpa using h2
    exact h3 hkx

theorem upsertAllBy_keys_nodup {α κ : Type} [DecidableEq κ] (keyf : α → κ)
    (t rs : List α) (h : (t.map keyf).Nodup) :
    ((upsertAllBy (fun x => some (keyf x)) t rs).map keyf).Nodup := by
  induction rs generalizing t with
  | nil => exact h
  | cons r rs ih => exact ih _ (upsertBy_keys_nodup keyf t r h)

/-- The first roster entry carrying a given fresh id contributes the
players row stored for that id. -/
theorem sieveNew_mem_find (ps : List PlayerEntry) (seen : List (Option String))
    (pid : String) (p0 : PlayerEntry)
    (hfind : ps.find? (fun p => p.pid == some pid) = some p0)
    (hseen : (some pid : Option String) ∉ seen) :
    (⟨some pid, p0.pname⟩ : PlayerRow) ∈ (sieveNew ps seen).1 := by
  induction ps generalizing seen with
  | nil => simp at hfind
  | cons q qs ih =>
    rw [List.find?_cons] at hfind
    cases hq : (q.pid == some pid) with
    | true =>
      rw [hq] at hfind
      have hq0 : q = p0 := Option.some.inj hfind
      have hqp : q.pid = some pid := by simpa using hq
      have hnm : q.pid ∉ seen := by rw [hqp]; exact hseen
      rw [sieveNew, if_neg hnm]
      subst hq0
      rw [← hqp]
      exact List.mem_cons_self _ _
    | false =>
      rw [hq] at hfind
      have hqp : ¬(q.pid = some pid) := by simpa using hq
      by_cases hmem : q.pid ∈ seen
      · rw [sieveNew, if_pos hmem]
        exact ih _ hfind hseen
      · rw [sieveNew, if_neg hmem]
        refine List.mem_cons_of_mem _ (ih _ hfind ?_)
        intro hmem2
        rcases List.mem_append.mp hmem2 with h3 | h3
        · exact hseen h3
        · rw [List.mem_singleton] at h3
          exact hqp h3.symm

theorem filter_key_eq_single {rs : List PlayerRow} {r0 : PlayerRow} {pid : String}
    (hn : (rs.map (fun r => r.id)).Nodup) (hmem : r0 ∈ rs)
    (hid : r0.id = some pid) :
    rs.filter (fun r => r.id == some pid) = [r0] := by
  induction rs with
  | nil => simp at hmem
  | cons x xs ih =>
    rw [List.map_cons, List.nodup_cons] at hn
    rcases List.mem_cons.mp hmem with h1 | h1
    · subst h1
      rw [List.filter_cons, if_pos (by rw [hid]; simp)]
      have hnil : xs.filter (fun r => r.id == some pid) = [] := by
        rw [List.filter_eq_nil_iff]
        intro a ha hpa
        rw [beq_iff_eq] at hpa
        exact hn.1 (by rw [hid, ← hpa]; exact List.mem_map_of_mem _ ha)
      rw [hnil]
    · have hxne : ¬((x.id == some pid) = true) := by
        rw [beq_iff_eq]
        intro hx
        refine hn.1 ?_
        rw [hx, ← hid]
        exact List.mem_map_of_mem _ h1
      rw [List.filter_cons, if_neg hxne]
      exact ih hn.2 h1

/-- After an upsert sequence with pairwise-distinct non-null keys, the rows
stored under a given key are exactly the one sequence row carrying it. -/
theorem upsertAll_filter_key (t rs : List PlayerRow) (r0 : PlayerRow)
    (pid : String) (hn : (rs.map (fun r => r.id)).Nodup) (hmem : r0 ∈ rs)
    (hid : r0.id = some pid) :
    (upsertAllBy (fun r => r.id) t rs).filter (fun r => r.id == some pid) = [r0] := by
  rw [upsertAllBy_eq, List.filter_append, List.filter_filter]
  have h1 : t.filter (fun x =>
      (x.id == some pid) && (!(rs.any (fun r => keyConflict x.id r.id)))) = [] := by
    rw [List.filter_eq_nil_iff]
    intro a ha
    rw [Bool.and_eq_true, Bool.not_eq_true', List.any_eq_false]
    rintro ⟨hpa, hno⟩
    rw [beq_iff_eq] at hpa
    have hc : keyConflict a.id r0.id = true := by
      rw [hpa, hid]
      simp [keyConflict]
    exact hno r0 hmem hc
  rw [h1, sieveLast_eq_self _ _ hn, filter_key_eq_single hn hmem hid,
    List.nil_append]


/-! ### Claim theorems: ingestion -/

/-- C1: re-ingesting the identical document into an empty store leaves the
games/hands/players/hand_players row counts unchanged and exactly doubles
the events/community_cards/hand_results row counts, provided the document
carries a session id and every hand carries a hand id (the amendment the
counterexample forces). -/
theorem C1_reingest_counts (doc : Document) (db1 : DB) (s1 : IngestStats)
    (hg : doc.gameId.isSome = true)
    (hh : ∀ h ∈ doc.hands, h.hid.isSome = true)
    (h1 : ingest_file doc DB.empty = .ok (db1, s1)) :
    ∃ db2 s2, ingest_file doc db1 = .ok (db2, s2) ∧
      db2.games.length = db1.games.length ∧
      db2.hands.length = db1.hands.length ∧
      db2.players.length = db1.players.length ∧
      db2.hand_players.length = db1.hand_players.length ∧
      db2.events.length = 2 * db1.events.length ∧
      db2.community_cards.length = 2 * db1.community_cards.length ∧
      db2.hand_results.length = 2 * db1.hand_results.length :=
  c1_reingest_counts doc db1 s1 hg hh h1

/-- C1 witness: the concrete two-player scenario document, ingested twice. -/
theorem C1_witness :
    ∃ db2 s2, ingest_file scenDoc (applyDoc scenDoc DB.empty) = .ok (db2, s2) ∧
      db2.games.length = (applyDoc scenDoc DB.empty).games.length ∧
      db2.hands.length = (applyDoc scenDoc DB.empty).hands.length ∧
      db2.players.length = (applyDoc scenDoc DB.empty).players.length ∧
      db2.hand_players.length = (applyDoc scenDoc DB.empty).hand_players.length ∧
      db2.events.length = 2 * (applyDoc scenDoc DB.empty).events.length ∧
      db2.community_cards.length =
        2 * (applyDoc scenDoc DB.empty).community_cards.length ∧
      db2.hand_results.length = 2 * (applyDoc scenDoc DB.empty).hand_results.length :=
  C1_reingest_counts scenDoc (applyDoc scenDoc DB.empty) (statsOf scenDoc)
    (by decide) (by decide) (by decide)

/-- C1 counterexample: a document without a session id upserts its games
row under a NULL key, which SQLite never treats as conflicting, so
re-ingesting it grows the games table from one row to two instead of
leaving the count unchanged. -/
theorem C1_counterexample :
    ingest_file (mkDoc none []) DB.empty =
      .ok ({DB.empty with games := [⟨none, none, none, 0⟩]}, ⟨none, 0, 0, 0, 0⟩) ∧
    ingest_file (mkDoc none []) {DB.empty with games := [⟨none, none, none, 0⟩]} =
      .ok ({DB.empty with games := [⟨none, none, none, 0⟩, ⟨none, none, none, 0⟩]},
           ⟨none, 0, 0, 0, 0⟩) ∧
    ([(⟨none, none, none, 0⟩ : GameRow), ⟨none, none, none, 0⟩]).length ≠
      ([(⟨none, none, none, 0⟩ : GameRow)]).length :=
  ⟨rfl, rfl, by decide⟩

/-- C3: a failing document aborts the whole directory ingest. The first
document ingests fine on its own and the second raises, and
ingest_directory over both propagates the error instead of returning the
collected stats of the first. -/
theorem C3_batch_aborts :
    ingest_file scenDoc DB.empty = .ok (applyDoc scenDoc DB.empty, statsOf scenDoc) ∧
    ingest_file badDoc DB.empty = .error "NOT NULL constraint failed: hand_players" ∧
    ingest_directory [scenDoc, badDoc] DB.empty =
      .error "NOT NULL constraint failed: hand_players" :=
  ⟨by decide, by decide, by decide⟩

/-- C4: a document missing its session id does NOT fail with a
MalformedInputError naming the field: it succeeds and stores a games row
whose id is null; and a hand without an id (with a roster) fails with a
NOT NULL constraint violation, not a MalformedInputError. -/
theorem C4_no_malformed_input_error :
    ingest_file (mkDoc none []) DB.empty =
      .ok ({DB.empty with games := [⟨none, none, none, 0⟩]}, ⟨none, 0, 0, 0, 0⟩) ∧
    ingest_file (mkDoc (some "g") [mkHand none [mkPE (some "p") none (some 1)] []])
        DB.empty =
      .error "NOT NULL constraint failed: hand_players" :=
  ⟨rfl, by decide⟩

/-- C5 (amended): within one ingest call only the FIRST occurrence of a
raw player id writes the players row, so the stored nickname is the first
one seen in document order, and players_added counts one write per
distinct id (the written rows have pairwise-distinct ids). -/
theorem C5_first_write_wins (doc : Document) (db db2 : DB) (s : IngestStats)
    (pid : String) (p0 : PlayerEntry)
    (h : ingest_file doc db = .ok (db2, s))
    (hfind : (allPlayersSeq doc).find? (fun p => p.pid == some pid) = some p0) :
    s.players_added = (docPlayerRows doc).length ∧
    ((docPlayerRows doc).map (fun r => r.id)).Nodup ∧
    db2.players.filter (fun r => r.id == some pid) = [⟨some pid, p0.pname⟩] := by
  obtain ⟨hdb, hs⟩ := ingest_ok_elim doc db db2 s h
  refine ⟨by rw [hs]; rfl, (sieveNew_ids_nodup (allPlayersSeq doc) []).1, ?_⟩
  rw [hdb]
  exact upsertAll_filter_key db.players (docPlayerRows doc)
    ⟨some pid, p0.pname⟩ pid (sieveNew_ids_nodup _ []).1
    (sieveNew_mem_find _ [] pid p0 hfind (by simp)) rfl

/-- C5 witness: in the scenario document, player p1 resolves to the first
(and only) occurrence of that id. -/
theorem C5_witness :
    (statsOf scenDoc).players_added = (docPlayerRows scenDoc).length ∧
    ((docPlayerRows scenDoc).map (fun r => r.id)).Nodup ∧
    (applyDoc scenDoc DB.empty).players.filter (fun r => r.id == some "p1") =
      [⟨some "p1", some "alice"⟩] :=
  C5_first_write_wins scenDoc DB.empty (applyDoc scenDoc DB.empty)
    (statsOf scenDoc) "p1" (mkPE (some "p1") (some "alice") (some 1))
    (by decide) (by decide)

/-- C5 counterexample: with two occurrences of raw id "a" named "X" then
"Y", the stored players row keeps the FIRST nickname "X", not the last
written as the claim states. -/
theorem C5_counterexample :
    (match ingest_file c5doc DB.empty with
     | .ok (d, _) => d.players
     | .error _ => []) = [⟨some "a", some "X"⟩] ∧
    (⟨some "a", some "X"⟩ : PlayerRow) ≠ ⟨some "a", some "Y"⟩ :=
  ⟨by decide, by decide⟩

/-- C6: event classification is exhaustive and exclusive on the payload
type tag: 9 appends one community_cards row padded to five slots, 10
appends one hand_results row with the seat resolved through the
hand-scoped seat map and the combination list comma-joined (null when
empty), and every other tag, taxonomy or not, appends one generic events
row preserving the raw tag, timestamp, seat and value. -/
theorem C6_event_classification (h : String)
    (smap : List (Option Int × Option String)) (db : DB) (stats : IngestStats)
    (ev : EventRec) :
    (ev.payload.type = some 9 →
      processEvent (some h) smap (db, stats) ev =
        .ok ({db with community_cards := (db.community_cards ++
          [⟨h, ev.payload.turn.getD 1, ev.payload.run.getD 1,
            ev.payload.cards[0]?, ev.payload.cards[1]?, ev.payload.cards[2]?,
            ev.payload.cards[3]?, ev.payload.cards[4]?⟩])}, stats)) ∧
    (ev.payload.type = some 10 →
      processEvent (some h) smap (db, stats) ev =
        .ok ({db with hand_results := (db.hand_results ++
          [⟨h, ev.payload.seat, (smap.lookup ev.payload.seat).join,
            ev.payload.pot, ev.payload.value,
            ev.payload.cards[0]?, ev.payload.cards[1]?,
            ev.payload.handDescription,
            (if ev.payload.combination.isEmpty then none
             else some (String.intercalate "," ev.payload.combination)),
            ev.payload.position, ev.payload.runNumber, ev.payload.hiLo⟩])},
          {stats with results_added := stats.results_added + 1})) ∧
    (ev.payload.type ≠ some 9 → ev.payload.type ≠ some 10 →
      processEvent (some h) smap (db, stats) ev =
        .ok ({db with events := (db.events ++
          [⟨h, ev.atTime, ev.payload.type, ev.payload.seat, ev.payload.value⟩])},
          {stats with events_added := stats.events_added + 1})) := by
  refine ⟨?_, ?_, ?_⟩
  · intro h9
    simp [processEvent, h9, mkCCRow]
  · intro h10
    simp [processEvent, h10, mkHRRow]
  · intro h9 h10
    have b9 : (ev.payload.type == some 9) = false := by
      rw [beq_eq_false_iff_ne]; exact h9
    have b10 : (ev.payload.type == some 10) = false := by
      rw [beq_eq_false_iff_ne]; exact h10
    simp [processEvent, b9, b10, mkEventRow]

/-- C6 witness: one event of each class, including an out-of-taxonomy tag
99, against a one-seat map. -/
theorem C6_witness :
    (processEvent (some "h") [(some 1, some "p")]
        (DB.empty, ⟨some "g", 0, 0, 0, 0⟩)
        ⟨some 5, {payload0 with type := some 9, cards := ["Ah", "Kd", "2c"]}⟩ =
      .ok ({DB.empty with community_cards :=
              [⟨"h", 1, 1, some "Ah", some "Kd", some "2c", none, none⟩]},
            ⟨some "g", 0, 0, 0, 0⟩)) ∧
    (processEvent (some "h") [(some 1, some "p")]
        (DB.empty, ⟨some "g", 0, 0, 0, 0⟩)
        ⟨some 6, {payload0 with type := some 10, seat := some 1, pot := some 14, value := some 14, combination := ["A", "K"]}⟩ =
      .ok ({DB.empty with hand_results :=
              [⟨"h", some 1, some "p", some 14, some 14, none, none, none,
                some "A,K", none, none, none⟩]},
            ⟨some "g", 0, 0, 0, 1⟩)) ∧
    (processEvent (some "h") [(some 1, some "p")]
        (DB.empty, ⟨some "g", 0, 0, 0, 0⟩)
        ⟨some 7, {payload0 with type := some 99, seat := some 2, value := some 5}⟩ =
      .ok ({DB.empty with events := [⟨"h", some 7, some 99, some 2, some 5⟩]},
            ⟨some "g", 0, 0, 1, 0⟩)) :=
  ⟨(C6_event_classification "h" [(some 1, some "p")] DB.empty
      ⟨some "g", 0, 0, 0, 0⟩ _).1 rfl,
   (C6_event_classification "h" [(some 1, some "p")] DB.empty
      ⟨some "g", 0, 0, 0, 0⟩ _).2.1 rfl,
   (C6_event_classification "h" [(some 1, some "p")] DB.empty
      ⟨some "g", 0, 0, 0, 0⟩ _).2.2 (by decide) (by decide)⟩

/-- C10 (amended): (1) an ingest from a store without duplicate
(hand, player) pairs never creates one; (2) for a single-hand document
whose roster pairs distinct players with distinct seats, the number of
hand_players rows of that hand equals the number of distinct seats in the
roster (in general it equals the number of distinct player ids, which the
counterexample separates from the seat count). -/
theorem C10_hand_participation :
    (∀ (doc : Document) (db db2 : DB) (s : IngestStats),
        ingest_file doc db = .ok (db2, s) →
        ((db.hand_players.map (fun r => (r.hand_id, r.player_id))).Nodup) →
        ((db2.hand_players.map (fun r => (r.hand_id, r.player_id))).Nodup)) ∧
    (∀ (g hid : String) (ps : List PlayerEntry) (db2 : DB) (s : IngestStats),
        ((ps.map (fun p => p.pid)).Nodup) →
        ((ps.map (fun p => p.seat)).Nodup) →
        ingest_file (mkDoc (some g) [mkHand (some hid) ps []]) DB.empty =
          .ok (db2, s) →
        (db2.hand_players.filter (fun r => r.hand_id == hid)).length =
          ((ps.map (fun p => p.seat)).dedup).length) := by
  constructor
  · intro doc db db2 s h hnd
    obtain ⟨hdb, -⟩ := ingest_ok_elim doc db db2 s h
    rw [hdb]
    exact upsertAllBy_keys_nodup (fun r => (r.hand_id, r.player_id))
      db.hand_players (docHPRows doc) hnd
  · intro g hid ps db2 s hpid hseat h
    have hok := ingest_ok_docOk _ _ _ h
    have hsome : ∀ p ∈ ps, p.pid.isSome = true := by
      intro p hp
      refine docOk_pids _ hok p ?_
      simp only [allPlayersSeq, mkDoc, mkHand, List.flatMap_cons,
        List.flatMap_nil, List.append_nil]
      exact hp
    obtain ⟨hdb, -⟩ := ingest_ok_elim _ _ _ _ h
    rw [hdb]
    have hrows : docHPRows (mkDoc (some g) [mkHand (some hid) ps []]) =
        ps.map (mkHPRow hid) := by
      simp [docHPRows, mkDoc, mkHand]
    show ((upsertAllBy (fun r => some (r.hand_id, r.player_id))
        DB.empty.hand_players
        (docHPRows (mkDoc (some g) [mkHand (some hid) ps []]))).filter
        (fun r => r.hand_id == hid)).length = _
    rw [hrows, upsertAllBy_eq]
    have hkeys : ((ps.map (mkHPRow hid)).map
        (fun r => (some (r.hand_id, r.player_id) : Option (String × String)))).Nodup := by
      rw [List.map_map]
      show (ps.map ((fun o : Option String =>
        (some (hid, o.getD "") : Option (String × String))) ∘ (fun p => p.pid))).Nodup
      rw [← List.map_map]
      refine List.Nodup.map_on ?_ hpid
      intro o1 ho1 o2 ho2 heq
      obtain ⟨p1, hp1, hq1⟩ := List.mem_map.mp ho1
      obtain ⟨p2, hp2, hq2⟩ := List.mem_map.mp ho2
      obtain ⟨a, ha⟩ := Option.isSome_iff_exists.mp (hq1 ▸ hsome p1 hp1)
      obtain ⟨b, hb⟩ := Option.isSome_iff_exists.mp (hq2 ▸ hsome p2 hp2)
      have h2 : o1.getD "" = o2.getD "" :=
        (Prod.mk.injEq _ _ _ _).mp (Option.some.inj heq) |>.2
      rw [ha, hb] at h2 ⊢
      simp only [Option.getD_some] at h2
      rw [h2]
    rw [sieveLast_eq_self _ _ hkeys]
    simp only [DB.empty, List.filter_nil, List.nil_append]
    rw [List.filter_eq_self.mpr ?_]
    · rw [List.length_map, List.dedup_eq_self.mpr hseat, List.length_map]
    · intro r hr
      obtain ⟨p, -, hq⟩ := List.mem_map.mp hr
      rw [← hq]
      simp [mkHPRow]

/-- C10 witness: the scenario document starting from the empty store, and
a two-seat roster document for the count half. -/
theorem C10_witness :
    ((applyDoc scenDoc DB.empty).hand_players.map
      (fun r => (r.hand_id, r.player_id))).Nodup ∧
    (((applyDoc (mkDoc (some "g") [mkHand (some "h")
          [mkPE (some "p1") (some "alice") (some 1),
           mkPE (some "p2") (some "bob") (some 2)] []]) DB.empty).hand_players.filter
        (fun r => r.hand_id == "h")).length =
      ((([mkPE (some "p1") (some "alice") (some 1),
          mkPE (some "p2") (some "bob") (some 2)]).map
        (fun p => p.seat)).dedup).length) :=
  ⟨C10_hand_participation.1 scenDoc DB.empty (applyDoc scenDoc DB.empty)
      (statsOf scenDoc) (by decide) (by decide),
   C10_hand_participation.2 "g" "h"
      [mkPE (some "p1") (some "alice") (some 1),
       mkPE (some "p2") (some "bob") (some 2)]
      (applyDoc (mkDoc (some "g") [mkHand (some "h")
        [mkPE (some "p1") (some "alice") (some 1),
         mkPE (some "p2") (some "bob") (some 2)] []]) DB.empty)
      (statsOf (mkDoc (some "g") [mkHand (some "h")
        [mkPE (some "p1") (some "alice") (some 1),
         mkPE (some "p2") (some "bob") (some 2)] []]))
      (by decide) (by decide) (by decide)⟩

/-- C10 counterexample: two roster entries sharing seat 1 under distinct
player ids produce two hand_players rows while the roster populates a
single distinct seat. -/
theorem C10_counterexample :
    (match ingest_file sharedSeatDoc DB.empty with
     | .ok (d, _) => (d.hand_players.filter (fun r => r.hand_id == "h")).length
     | .error _ => 0) = 2 ∧
    ((([mkPE (some "a") none (some 1), mkPE (some "b") none (some 1)]).map
        (fun p => p.seat)).dedup).length = 1 ∧
    (2 : Nat) ≠ 1 :=
  ⟨by decide, by decide, by decide⟩

/-! ### Mapping-load lemmas -/

theorem foldl_max_bounds (l : List CanonicalRow) (init : Int) :
    init ≤ l.foldl (fun m x => max m x.id) init ∧
    ∀ c ∈ l, c.id ≤ l.foldl (fun m x => max m x.id) init := by
  induction l generalizing init with
  | nil => exact ⟨le_refl _, by simp⟩
  | cons x xs ih =>
    refine ⟨le_trans (le_max_left _ _) (ih (max init x.id)).1, ?_⟩
    intro c hc
    rcases List.mem_cons.mp hc with h1 | h1
    · rw [h1]
      exact le_trans (le_max_right init x.id) (ih (max init x.id)).1
    · exact (ih (max init x.id)).2 c h1

/-- The auto-assigned rowid is strictly larger than every stored id. -/
theorem nextRowId_fresh (cs : List CanonicalRow) (c : CanonicalRow) (h : c ∈ cs) :
    c.id ≠ nextRowId cs := by
  cases cs with
  | nil => simp at h
  | cons c0 rest =>
    have hid : nextRowId (c0 :: rest) =
        (rest.foldl (fun m x => max m x.id) c0.id) + 1 := rfl
    have hlt : c.id < nextRowId (c0 :: rest) := by
      rw [hid]
      rcases List.mem_cons.mp h with h1 | h1
      · have := (foldl_max_bounds rest c0.id).1
        rw [h1]
        omega
      · have := (foldl_max_bounds rest c0.id).2 c h1
        omega
    omega

/-- A pair present among the mapping rows resolves whenever every
canonical id referenced by a mapping row is stored. -/
theorem lookup_present_isSome (ms : List MappingRow) (cs : List CanonicalRow)
    (r n : String)
    (hmem : ms.any (fun m => m.raw_player_id == r && m.nickname == n) = true)
    (hinv : ∀ m ∈ ms, ∃ c ∈ cs, c.id = m.canonical_id) :
    ∃ nm, lookupName ms cs r n = some nm := by
  have h1 : (ms.find? (fun m => m.raw_player_id == r && m.nickname == n)).isSome
      = true := by
    rw [List.find?_isSome]
    rcases List.any_eq_true.mp hmem with ⟨m, hm, hp⟩
    exact ⟨m, hm, hp⟩
  obtain ⟨m, hm⟩ := Option.isSome_iff_exists.mp h1
  obtain ⟨c, hc, hcid⟩ := hinv m (List.mem_of_find?_eq_some hm)
  have h2 : (cs.find? (fun x => x.id == m.canonical_id)).isSome = true := by
    rw [List.find?_isSome]
    exact ⟨c, hc, by rw [hcid]; simp⟩
  obtain ⟨c2, hc2⟩ := Option.isSome_iff_exists.mp h2
  refine ⟨c2.name, ?_⟩
  rw [lookupName, hm]
  show (cs.find? (fun x => x.id == m.canonical_id)).map (fun c => c.name) = _
  rw [hc2]
  rfl

/-- A pair absent from the mapping rows never resolves. -/
theorem lookup_absent_none (ms : List MappingRow) (cs : List CanonicalRow)
    (r n : String)
    (habs : ms.any (fun m => m.raw_player_id == r && m.nickname == n) = false) :
    lookupName ms cs r n = none := by
  have h1 : ms.find? (fun m => m.raw_player_id == r && m.nickname == n) = none := by
    rw [List.find?_eq_none]
    intro x hx hp
    rw [List.any_eq_false] at habs
    exact habs x hx hp
  rw [lookupName, h1]

/-- Appending a mapping row for a different pair changes no lookup. -/
theorem lookup_append_mapping (ms : List MappingRow) (cs : List CanonicalRow)
    (row : MappingRow) (r n : String)
    (hne : (row.raw_player_id == r && row.nickname == n) = false) :
    lookupName (ms ++ [row]) cs r n = lookupName ms cs r n := by
  rw [lookupName, lookupName, List.find?_append]
  cases hf : ms.find? (fun m => m.raw_player_id == r && m.nickname == n) with
  | some m => rfl
  | none =>
    rw [Option.none_or, List.find?_cons]
    simp only [hne]
    rfl

/-- Appending one mapping row makes exactly its pair resolve to the row
referenced by its canonical id, when the pair was absent before. -/
theorem lookup_append_new_pair (ms : List MappingRow) (cs : List CanonicalRow)
    (r n : String) (i : Int)
    (habs : ms.any (fun m => m.raw_player_id == r && m.nickname == n) = false) :
    lookupName (ms ++ [⟨r, n, i⟩]) cs r n =
      (cs.find? (fun c => c.id == i)).map (fun c => c.name) := by
  rw [lookupName, List.find?_append]
  have h1 : ms.find? (fun m => m.raw_player_id == r && m.nickname == n) = none := by
    rw [List.find?_eq_none]
    intro x hx hp
    rw [List.any_eq_false] at habs
    exact habs x hx hp
  rw [h1, Option.none_or, List.find?_cons]
  simp

/-- Appending a canonical row changes no lookup over mapping rows whose
canonical ids all resolve already. -/
theorem lookup_append_canonical (ms : List MappingRow) (cs : List CanonicalRow)
    (c0 : CanonicalRow) (r n : String)
    (hinv : ∀ m ∈ ms, ∃ c ∈ cs, c.id = m.canonical_id) :
    lookupName ms (cs ++ [c0]) r n = lookupName ms cs r n := by
  rw [lookupName, lookupName]
  cases hf : ms.find? (fun m => m.raw_player_id == r && m.nickname == n) with
  | none => rfl
  | some m =>
    obtain ⟨c, hc, hcid⟩ := hinv m (List.mem_of_find?_eq_some hf)
    have h2 : (cs.find? (fun x => x.id == m.canonical_id)).isSome = true := by
      rw [List.find?_isSome]
      exact ⟨c, hc, by rw [hcid]; simp⟩
    obtain ⟨c2, hc2⟩ := Option.isSome_iff_exists.mp h2
    show ((cs ++ [c0]).find? (fun x => x.id == m.canonical_id)).map
        (fun c => c.name) =
      (cs.find? (fun x => x.id == m.canonical_id)).map (fun c => c.name)
    rw [List.find?_append, hc2]
    rfl

theorem optSome_or {α : Type} (a : α) (o : Option α) : (some a).or o = some a := rfl

/-- A valid alias at the head of the list hits exactly its own pair or one
hit further on. -/
theorem aliasHit_cons_valid (a : AliasEntry) (as : List AliasEntry)
    (ra na : String) (hra : a.aid = some ra) (hna : a.nickname = some na)
    (hta : truthyS a.aid = true) (htn : truthyS a.nickname = true)
    (r n : String) :
    aliasHit (a :: as) r n = ((ra == r && na == n) || aliasHit as r n) := by
  rw [hra] at hta
  rw [hna] at htn
  rw [aliasHit, List.any_cons, hra, hna, hta, htn]
  rw [aliasHit]
  simp

/-- An alias missing a required field hits nothing. -/
theorem aliasHit_cons_invalid (a : AliasEntry) (as : List AliasEntry)
    (hva : (!(truthyS a.aid) || !(truthyS a.nickname)) = true) (r n : String) :
    aliasHit (a :: as) r n = aliasHit as r n := by
  rw [aliasHit, List.any_cons, aliasHit]
  cases h1 : truthyS a.aid with
  | false => simp
  | true =>
    cases h2 : truthyS a.nickname with
    | false => simp
    | true => rw [h1, h2] at hva; simp at hva

/-- The alias loop of one canonical entry: the canonical table is left
alone, the join invariant is preserved, and a pair afterwards resolves to
its prior binding, falling back to this entry's name when a valid alias of
the processed list carries the pair. -/
theorem aliasLoop_char (as : List AliasEntry) (i : Int) (nm : String) :
    ∀ (db : DB) (st : LoadStats),
      db.canonical_players.find? (fun c => c.id == i) = some ⟨i, nm⟩ →
      (∀ m ∈ db.player_mappings, ∃ c ∈ db.canonical_players,
        c.id = m.canonical_id) →
      ((as.foldl (processAlias i) (db, st)).1.canonical_players =
          db.canonical_players ∧
        (∀ m ∈ (as.foldl (processAlias i) (db, st)).1.player_mappings,
          ∃ c ∈ db.canonical_players, c.id = m.canonical_id) ∧
        ∀ r n,
          lookupName (as.foldl (processAlias i) (db, st)).1.player_mappings
              (as.foldl (processAlias i) (db, st)).1.canonical_players r n =
            (lookupName db.player_mappings db.canonical_players r n).or
              (if aliasHit as r n then some nm else none)) := by
  induction as with
  | nil =>
    intro db st hfound hinv
    refine ⟨rfl, hinv, ?_⟩
    intro r n
    rw [show aliasHit [] r n = false from rfl]
    simp [Option.or_none]
  | cons a as ih =>
    intro db st hfound hinv
    rw [List.foldl_cons]
    cases hva : (!(truthyS a.aid) || !(truthyS a.nickname)) with
    | true =>
      have hstep : processAlias i (db, st) a = (db, st) := by
        rw [processAlias, if_pos hva]
      rw [hstep]
      obtain ⟨h1, h2, h3⟩ := ih db st hfound hinv
      refine ⟨h1, h2, ?_⟩
      intro r n
      rw [h3 r n, aliasHit_cons_invalid a as hva]
    | false =>
      have hta : truthyS a.aid = true := by
        rcases Bool.or_eq_false_iff.mp hva with ⟨h1, h2⟩
        rw [Bool.not_eq_false'] at h1
        exact h1
      have htn : truthyS a.nickname = true := by
        rcases Bool.or_eq_false_iff.mp hva with ⟨h1, h2⟩
        rw [Bool.not_eq_false'] at h2
        exact h2
      obtain ⟨ra, hra⟩ : ∃ s, a.aid = some s := by
        cases hx : a.aid with
        | none => rw [hx] at hta; simp [truthyS] at hta
        | some s => exact ⟨s, rfl⟩
      obtain ⟨na, hna⟩ : ∃ s, a.nickname = some s := by
        cases hx : a.nickname with
        | none => rw [hx] at htn; simp [truthyS] at htn
        | some s => exact ⟨s, rfl⟩
      have hga : a.aid.getD "" = ra := by rw [hra]; rfl
      have hgn : a.nickname.getD "" = na := by rw [hna]; rfl
      cases hdup : db.player_mappings.any
          (fun m => m.raw_player_id == ra && m.nickname == na) with
      | true =>
        have hstep : processAlias i (db, st) a =
            (db, {st with errors := (st.errors ++ [dupAliasMsg ra na])}) := by
          rw [processAlias, if_neg (by rw [hva]; simp)]
          rw [hga, hgn]
          show (if (db.player_mappings.any
              (fun m => m.raw_player_id == ra && m.nickname == na)) = true
            then _ else _) = _
          rw [hdup]
          simp
        rw [hstep]
        obtain ⟨h1, h2, h3⟩ := ih db _ hfound hinv
        refine ⟨h1, h2, ?_⟩
        intro r n
        rw [h3 r n, aliasHit_cons_valid a as ra na hra hna hta htn]
        by_cases hram : ra = r ∧ na = n
        · obtain ⟨hr2, hn2⟩ := hram
          subst hr2
          subst hn2
          obtain ⟨x, hx⟩ := lookup_present_isSome db.player_mappings
            db.canonical_players ra na hdup hinv
          rw [hx, optSome_or, optSome_or]
        · have hterm : (ra == r && na == n) = false := by
            rcases not_and_or.mp hram with h4 | h4
            · simp [beq_eq_false_iff_ne, h4]
            · simp [beq_eq_false_iff_ne, h4]
          rw [hterm, Bool.false_or]
      | false =>
        have hstep : processAlias i (db, st) a =
            ({db with player_mappings := (db.player_mappings ++ [⟨ra, na, i⟩])},
             {st with mappings_added := st.mappings_added + 1}) := by
          rw [processAlias, if_neg (by rw [hva]; simp)]
          rw [hga, hgn]
          show (if (db.player_mappings.any
              (fun m => m.raw_player_id == ra && m.nickname == na)) = true
            then _ else _) = _
          rw [hdup]
          simp
        rw [hstep]
        have hinv2 : ∀ m ∈ db.player_mappings ++ [(⟨ra, na, i⟩ : MappingRow)],
            ∃ c ∈ db.canonical_players, c.id = m.canonical_id := by
          intro m hm
          rcases List.mem_append.mp hm with h4 | h4
          · exact hinv m h4
          · rw [List.mem_singleton] at h4
            subst h4
            exact ⟨⟨i, nm⟩, List.mem_of_find?_eq_some hfound, rfl⟩
        obtain ⟨h1, h2, h3⟩ := ih
          {db with player_mappings := (db.player_mappings ++ [⟨ra, na, i⟩])}
          {st with mappings_added := st.mappings_added + 1} hfound hinv2
        refine ⟨h1, h2, ?_⟩
        intro r n
        rw [h3 r n, aliasHit_cons_valid a as ra na hra hna hta htn]
        by_cases hram : ra = r ∧ na = n
        · obtain ⟨hr2, hn2⟩ := hram
          subst hr2
          subst hn2
          rw [show ({db with player_mappings :=
              (db.player_mappings ++ [⟨ra, na, i⟩])} : DB).player_mappings =
            db.player_mappings ++ [⟨ra, na, i⟩] from rfl]
          rw [show ({db with player_mappings :=
              (db.player_mappings ++ [⟨ra, na, i⟩])} : DB).canonical_players =
            db.canonical_players from rfl]
          rw [lookup_append_new_pair db.player_mappings db.canonical_players
            ra na i hdup, hfound]
          rw [lookup_absent_none db.player_mappings db.canonical_players
            ra na hdup]
          rw [Option.none_or]
          have hcond : ((ra == ra && na == na) || aliasHit as ra na) = true := by
            simp
          rw [hcond, if_pos rfl]
          rw [show (Option.map (fun c => c.name) (some (⟨i, nm⟩ : CanonicalRow)))
            = some nm from rfl]
          rw [optSome_or]
        · have hterm : (ra == r && na == n) = false := by
            rcases not_and_or.mp hram with h4 | h4
            · simp [beq_eq_false_iff_ne, h4]
            · simp [beq_eq_false_iff_ne, h4]
          rw [hterm, Bool.false_or]
          rw [show ({db with player_mappings :=
              (db.player_mappings ++ [⟨ra, na, i⟩])} : DB).player_mappings =
            db.player_mappings ++ [⟨ra, na, i⟩] from rfl]
          rw [show ({db with player_mappings :=
              (db.player_mappings ++ [⟨ra, na, i⟩])} : DB).canonical_players =
            db.canonical_players from rfl]
          rw [lookup_append_mapping db.player_mappings db.canonical_players
            ⟨ra, na, i⟩ r n (by
              show (ra == r && na == n) = false
              exact hterm)]

/-- One canonical entry that processes without raising: the join invariant
is preserved and a pair now resolves to its prior binding, falling back to
this entry's name when the entry binds the pair. -/
theorem processEntry_char (e : CanonicalEntry) (db : DB) (st : LoadStats)
    (db1 : DB) (st1 : LoadStats)
    (h : processEntry (db, st) e = .ok (db1, st1))
    (hinv : ∀ m ∈ db.player_mappings, ∃ c ∈ db.canonical_players,
      c.id = m.canonical_id) :
    (∀ m ∈ db1.player_mappings, ∃ c ∈ db1.canonical_players,
      c.id = m.canonical_id) ∧
    ∀ r n, lookupName db1.player_mappings db1.canonical_players r n =
      (lookupName db.player_mappings db.canonical_players r n).or
        (if entryBinds e r n then e.name else none) := by
  cases hname : truthyS e.name with
  | false =>
    rw [processEntry, if_pos (by rw [hname]; rfl)] at h
    obtain ⟨hdb, -⟩ : db1 = db ∧ st1 = _ := by
      have h2 := Except.ok.inj h
      exact ⟨(congrArg Prod.fst h2).symm, (congrArg Prod.snd h2).symm⟩
    subst hdb
    refine ⟨hinv, ?_⟩
    intro r n
    rw [show entryBinds e r n = false from by rw [entryBinds, hname]; rfl]
    simp [Option.or_none]
  | true =>
    obtain ⟨nm, hnm⟩ : ∃ s, e.name = some s := by
      cases hx : e.name with
      | none => rw [hx] at hname; simp [truthyS] at hname
      | some s => exact ⟨s, rfl⟩
    rw [processEntry, if_neg (by rw [hname]; simp)] at h
    -- both id branches funnel through the same checked insert
    have hmain : ∀ (i : Int),
        (db.canonical_players.any (fun c => c.id == i)) = false →
        (if db.canonical_players.any (fun c => c.id == i) = true then
          Except.error "UNIQUE constraint failed: canonical_players.id"
         else if db.canonical_players.any
            (fun c => c.name == e.name.getD "") = true then
          Except.error "UNIQUE constraint failed: canonical_players.name"
         else Except.ok (e.aliases.foldl (processAlias i)
          ({db with canonical_players :=
              (db.canonical_players ++ [⟨i, e.name.getD ""⟩])},
           {st with canonical_players_added := st.canonical_players_added + 1})))
          = .ok (db1, st1) →
        (∀ m ∈ db1.player_mappings, ∃ c ∈ db1.canonical_players,
          c.id = m.canonical_id) ∧
        ∀ r n, lookupName db1.player_mappings db1.canonical_players r n =
          (lookupName db.player_mappings db.canonical_players r n).or
            (if entryBinds e r n then e.name else none) := by
      intro i hfresh hstep
      rw [if_neg (by rw [hfresh]; simp)] at hstep
      cases hdupn : db.canonical_players.any
          (fun c => c.name == e.name.getD "") with
      | true => rw [if_pos (by rw [hdupn])] at hstep; exact absurd hstep (by simp)
      | false =>
        rw [if_neg (by rw [hdupn]; simp)] at hstep
        have hok := Except.ok.inj hstep
        have hfound : ({db with canonical_players :=
            (db.canonical_players ++ [⟨i, e.name.getD ""⟩])} : DB).canonical_players.find?
            (fun c => c.id == i) = some ⟨i, e.name.getD ""⟩ := by
          show (db.canonical_players ++ [(⟨i, e.name.getD ""⟩ : CanonicalRow)]).find?
            (fun c => c.id == i) = _
          rw [List.find?_append]
          have hnone : db.canonical_players.find? (fun c => c.id == i) = none := by
            rw [List.find?_eq_none]
            intro x hx hp
            rw [List.any_eq_false] at hfresh
            exact hfresh x hx hp
          rw [hnone, Option.none_or, List.find?_cons]
          simp
        have hinv2 : ∀ m ∈ ({db with canonical_players :=
            (db.canonical_players ++ [⟨i, e.name.getD ""⟩])} : DB).player_mappings,
            ∃ c ∈ ({db with canonical_players :=
              (db.canonical_players ++ [⟨i, e.name.getD ""⟩])} : DB).canonical_players,
            c.id = m.canonical_id := by
          intro m hm
          obtain ⟨c, hc, hcid⟩ := hinv m hm
          exact ⟨c, List.mem_append_left _ hc, hcid⟩
        obtain ⟨ha1, ha2, ha3⟩ := aliasLoop_char e.aliases i (e.name.getD "")
          {db with canonical_players :=
            (db.canonical_players ++ [⟨i, e.name.getD ""⟩])}
          {st with canonical_players_added := st.canonical_players_added + 1}
          hfound hinv2
        have hdb1 : (e.aliases.foldl (processAlias i)
            ({db with canonical_players :=
                (db.canonical_players ++ [⟨i, e.name.getD ""⟩])},
             {st with canonical_players_added :=
                st.canonical_players_added + 1})).1 = db1 :=
          congrArg Prod.fst hok
        constructor
        · intro m hm
          rw [← hdb1] at hm ⊢
          obtain ⟨c, hc, hcid⟩ := ha2 m hm
          rw [ha1]
          exact ⟨c, hc, hcid⟩
        · intro r n
          rw [← hdb1]
          rw [ha3 r n]
          have hlk : lookupName ({db with canonical_players :=
              (db.canonical_players ++ [⟨i, e.name.getD ""⟩])} : DB).player_mappings
              ({db with canonical_players :=
                (db.canonical_players ++ [⟨i, e.name.getD ""⟩])} : DB).canonical_players
              r n = lookupName db.player_mappings db.canonical_players r n := by
            show lookupName db.player_mappings
              (db.canonical_players ++ [⟨i, e.name.getD ""⟩]) r n = _
            exact lookup_append_canonical db.player_mappings db.canonical_players
              ⟨i, e.name.getD ""⟩ r n hinv
          rw [hlk]
          have hbind : entryBinds e r n = aliasHit e.aliases r n := by
            rw [entryBinds, hname, Bool.true_and]
          rw [hbind]
          have hval : e.name.getD "" = nm := by rw [hnm]; rfl
          rw [hval, hnm]
    cases hcid : e.cid with
    | some i =>
      rw [hcid] at h
      have h2 : (if (db.canonical_players.any (fun c => c.id == i)) = true then
          (Except.error "UNIQUE constraint failed: canonical_players.id" :
            Except String (DB × LoadStats))
        else if (db.canonical_players.any
            (fun c => c.name == e.name.getD "")) = true then
          Except.error "UNIQUE constraint failed: canonical_players.name"
        else Except.ok (e.aliases.foldl (processAlias i)
          ({db with canonical_players :=
              (db.canonical_players ++ [⟨i, e.name.getD ""⟩])},
           {st with canonical_players_added :=
              st.canonical_players_added + 1})))
        = .ok (db1, st1) := h
      cases hfresh : db.canonical_players.any (fun c => c.id == i) with
      | true =>
        rw [if_pos (by rw [hfresh])] at h2
        exact absurd h2 (by simp)
      | false => exact hmain i hfresh h2
    | none =>
      rw [hcid] at h
      have hfresh : (db.canonical_players.any
          (fun c => c.id == nextRowId db.canonical_players)) = false := by
        rw [List.any_eq_false]
        intro c hc hp
        rw [beq_iff_eq] at hp
        exact nextRowId_fresh db.canonical_players c hc hp
      have h2 : (if (db.canonical_players.any
            (fun c => c.id == nextRowId db.canonical_players)) = true then
          (Except.error "UNIQUE constraint failed: canonical_players.id" :
            Except String (DB × LoadStats))
        else if (db.canonical_players.any
            (fun c => c.name == e.name.getD "")) = true then
          Except.error "UNIQUE constraint failed: canonical_players.name"
        else Except.ok (e.aliases.foldl
          (processAlias (nextRowId db.canonical_players))
          ({db with canonical_players := (db.canonical_players ++
              [⟨nextRowId db.canonical_players, e.name.getD ""⟩])},
           {st with canonical_players_added :=
              st.canonical_players_added + 1})))
        = .ok (db1, st1) := h
      exact hmain (nextRowId db.canonical_players) hfresh h2

/-- First-match structure of the source-side binding. -/
theorem specCanonicalBinding_cons (e : CanonicalEntry) (rest : List CanonicalEntry)
    (r n : String) :
    specCanonicalBinding (e :: rest) r n =
      (if entryBinds e r n then e.name else none).or
        (specCanonicalBinding rest r n) := by
  rw [specCanonicalBinding, List.find?_cons]
  cases hb : entryBinds e r n with
  | true =>
    have hname : truthyS e.name = true := by
      rw [entryBinds, Bool.and_eq_true] at hb
      exact hb.1
    obtain ⟨nm, hnm⟩ : ∃ s, e.name = some s := by
      cases hx : e.name with
      | none => rw [hx] at hname; simp [truthyS] at hname
      | some s => exact ⟨s, rfl⟩
    rw [if_pos rfl]
    show (some e).bind (fun e => e.name) = _
    rw [Option.some_bind, hnm, optSome_or]
  | false =>
    rw [if_neg (by simp), Option.none_or]
    rfl

/-- The canonical-entry loop: when it returns without raising, a pair
resolves to its binding before the loop, falling back to the first entry
of the list that binds it. -/
theorem entriesLoop_char (entries : List CanonicalEntry) :
    ∀ (db : DB) (st : LoadStats) (db1 : DB) (st1 : LoadStats),
      entries.foldlM processEntry (db, st) = .ok (db1, st1) →
      (∀ m ∈ db.player_mappings, ∃ c ∈ db.canonical_players,
        c.id = m.canonical_id) →
      ∀ r n, lookupName db1.player_mappings db1.canonical_players r n =
        (lookupName db.player_mappings db.canonical_players r n).or
          (specCanonicalBinding entries r n) := by
  induction entries with
  | nil =>
    intro db st db1 st1 h hinv r n
    have h2 := Except.ok.inj h
    have hdb : db1 = db := (congrArg Prod.fst h2).symm
    subst hdb
    rw [show specCanonicalBinding [] r n = none from rfl, Option.or_none]
  | cons e rest ih =>
    intro db st db1 st1 h hinv r n
    rw [List.foldlM_cons] at h
    cases hpe : processEntry (db, st) e with
    | error msg =>
      rw [hpe] at h
      exact absurd h (by simp [exceptBind_err])
    | ok pr =>
      obtain ⟨dbm, stm⟩ := pr
      rw [hpe, exceptBind_ok] at h
      obtain ⟨hinvm, hlkm⟩ := processEntry_char e db st dbm stm hpe hinv
      rw [ih dbm stm db1 st1 h hinvm r n, hlkm r n,
        specCanonicalBinding_cons, Option.or_assoc]

/-- C2: after a successful full-sync load, resolution agrees exactly with
the source: a (raw id, nickname) pair resolves to the display name bound
to it by the source (the first named entry listing it as an alias), and
resolves to nothing when the source does not list it — whatever mappings
any earlier load had installed. -/
theorem C2_resolve_matches_source (entries : List CanonicalEntry) (db db1 : DB)
    (st : LoadStats) (r n : String)
    (h : load_mappings (.parsed entries) db = .ok (db1, .stats st)) :
    get_canonical_name db1 r n = specCanonicalBinding entries r n := by
  rw [load_mappings] at h
  cases hf : entries.foldlM processEntry
      ({db with player_mappings := [], canonical_players := []},
       (⟨0, 0, []⟩ : LoadStats)) with
  | error msg =>
    rw [hf] at h
    exact absurd h (by simp [exceptBind_err])
  | ok pr =>
    obtain ⟨dbm, stm⟩ := pr
    rw [hf, exceptBind_ok] at h
    have h2 := Except.ok.inj h
    have hdb : db1 = dbm := (congrArg Prod.fst h2).symm
    subst hdb
    have hchar := entriesLoop_char entries
      {db with player_mappings := [], canonical_players := []}
      ⟨0, 0, []⟩ db1 stm hf (by intro m hm; simp at hm) r n
    rw [get_canonical_name, hchar]
    rw [show lookupName ({db with player_mappings := [], canonical_players := []} : DB).player_mappings ({db with player_mappings := [], canonical_players := []} : DB).canonical_players r n = none from rfl]
    rw [Option.none_or]

/-- C2 witness: the demo source loaded into an empty store; the pair
(a1, Lenny) resolves to Alice on both sides. -/
theorem C2_witness :
    get_canonical_name demoDB "a1" "Lenny" =
      specCanonicalBinding demoEntries "a1" "Lenny" :=
  C2_resolve_matches_source demoEntries DB.empty demoDB ⟨2, 2, []⟩ "a1" "Lenny"
    (by decide)

/-- C9: a missing mapping file and a source without the required top-level
key are both reported in the returned dict, nothing is raised, and the
store — in particular the canonical_players and player_mappings tables —
is returned unchanged. -/
theorem C9_source_errors_returned (db : DB) (path : String) :
    load_mappings (.missing path) db =
      .ok (db, .fileError ("Mapping file not found: " ++ path)) ∧
    load_mappings .malformed db =
      .ok (db, .fileError "Invalid YAML format: missing 'canonical_players' key") :=
  ⟨rfl, rfl⟩

/-- C8 counterexample: two canonical entries sharing a display name make
the second canonical INSERT violate UNIQUE(name) outside any try/except,
so load_mappings raises instead of recording a warning. -/
theorem C8_counterexample :
    load_mappings (.parsed dupNameEntries) DB.empty =
      .error "UNIQUE constraint failed: canonical_players.name" := by decide

/-- C8 (amended): per-item handling inside the load — an alias missing its
raw id or nickname is skipped silently; a duplicate (raw id, nickname)
pair is recorded as a warning and the loop continues; a fresh valid alias
is inserted and counted; an entry without a display name is skipped with a
warning. (Uniqueness violations on the canonical INSERT itself raise, per
the counterexample.) -/
theorem C8_item_level_handling :
    (∀ (db : DB) (st : LoadStats) (cid : Int) (a : AliasEntry),
        truthyS a.aid = false ∨ truthyS a.nickname = false →
        processAlias cid (db, st) a = (db, st)) ∧
    (∀ (db : DB) (st : LoadStats) (cid : Int) (a : AliasEntry) (r n : String),
        a.aid = some r → a.nickname = some n →
        truthyS a.aid = true → truthyS a.nickname = true →
        db.player_mappings.any
          (fun m => m.raw_player_id == r && m.nickname == n) = true →
        processAlias cid (db, st) a =
          (db, {st with errors := (st.errors ++ [dupAliasMsg r n])})) ∧
    (∀ (db : DB) (st : LoadStats) (cid : Int) (a : AliasEntry) (r n : String),
        a.aid = some r → a.nickname = some n →
        truthyS a.aid = true → truthyS a.nickname = true →
        db.player_mappings.any
          (fun m => m.raw_player_id == r && m.nickname == n) = false →
        processAlias cid (db, st) a =
          ({db with player_mappings := (db.player_mappings ++ [⟨r, n, cid⟩])},
           {st with mappings_added := st.mappings_added + 1})) ∧
    (∀ (db : DB) (st : LoadStats) (e : CanonicalEntry),
        truthyS e.name = false →
        processEntry (db, st) e =
          .ok (db, {st with errors :=
            (st.errors ++ ["Player entry missing 'name' field"])})) := by
  refine ⟨?_, ?_, ?_, ?_⟩
  · intro db st cid a hinv
    rw [processAlias, if_pos ?_]
    rcases hinv with h1 | h1
    · rw [h1]; simp
    · rw [h1]; simp
  · intro db st cid a r n hra hna hta htn hdup
    rw [processAlias, if_neg (by rw [hta, htn]; simp)]
    rw [show a.aid.getD "" = r from by rw [hra]; rfl,
      show a.nickname.getD "" = n from by rw [hna]; rfl]
    show (if (db.player_mappings.any
        (fun m => m.raw_player_id == r && m.nickname == n)) = true
      then _ else _) = _
    rw [hdup]
    simp
  · intro db st cid a r n hra hna hta htn hdup
    rw [processAlias, if_neg (by rw [hta, htn]; simp)]
    rw [show a.aid.getD "" = r from by rw [hra]; rfl,
      show a.nickname.getD "" = n from by rw [hna]; rfl]
    show (if (db.player_mappings.any
        (fun m => m.raw_player_id == r && m.nickname == n)) = true
      then _ else _) = _
    rw [hdup]
    simp
  · intro db st e hname
    rw [processEntry, if_pos (by rw [hname]; rfl)]

/-- C8 witness: one concrete case per item-level behavior. -/
theorem C8_witness :
    (processAlias 1 (DB.empty, ⟨0, 0, []⟩) ⟨none, some "n"⟩ =
      (DB.empty, ⟨0, 0, []⟩)) ∧
    (processAlias 1
        ({DB.empty with player_mappings := [⟨"r", "n", 1⟩]}, ⟨1, 1, []⟩)
        ⟨some "r", some "n"⟩ =
      ({DB.empty with player_mappings := [⟨"r", "n", 1⟩]},
       ⟨1, 1, [dupAliasMsg "r" "n"]⟩)) ∧
    (processAlias 1 (DB.empty, ⟨1, 0, []⟩) ⟨some "r", some "n"⟩ =
      ({DB.empty with player_mappings := [⟨"r", "n", 1⟩]}, ⟨1, 1, []⟩)) ∧
    (processEntry (DB.empty, ⟨0, 0, []⟩) ⟨none, none, []⟩ =
      .ok (DB.empty, ⟨0, 0, ["Player entry missing 'name' field"]⟩)) :=
  ⟨C8_item_level_handling.1 DB.empty ⟨0, 0, []⟩ 1 ⟨none, some "n"⟩
      (Or.inl rfl),
   C8_item_level_handling.2.1 {DB.empty with player_mappings := [⟨"r", "n", 1⟩]}
      ⟨1, 1, []⟩ 1 ⟨some "r", some "n"⟩ "r" "n" rfl rfl rfl rfl (by decide),
   C8_item_level_handling.2.2.1 DB.empty ⟨1, 0, []⟩ 1 ⟨some "r", some "n"⟩
      "r" "n" rfl rfl rfl rfl (by decide),
   C8_item_level_handling.2.2.2 DB.empty ⟨0, 0, []⟩ ⟨none, none, []⟩ rfl⟩

/-! ### C7 scenario computation -/

theorem filter_beq_of_nodup {α : Type} [DecidableEq α] (l : List α) (x : α)
    (h : l.Nodup) :
    l.filter (fun y => y == x) = if x ∈ l then [x] else [] := by
  induction l with
  | nil => simp
  | cons y ys ih =>
    rw [List.nodup_cons] at h
    rw [List.filter_cons]
    by_cases hyx : y = x
    · subst hyx
      rw [if_pos (by simp)]
      rw [ih h.2, if_neg h.1, if_pos (List.mem_cons_self _ _)]
    · rw [if_neg (by simp [hyx])]
      rw [ih h.2]
      by_cases hmem : x ∈ ys
      · rw [if_pos hmem, if_pos (List.mem_cons_of_mem _ hmem)]
      · rw [if_neg hmem, if_neg (by
          intro hc
          rcases List.mem_cons.mp hc with h3 | h3
          · exact hyx h3.symm
          · exact hmem h3)]

theorem dedup_of_all_eq {α : Type} [DecidableEq α] (l : List α) (K : α)
    (hne : l ≠ []) (hall : ∀ x ∈ l, x = K) : l.dedup = [K] := by
  induction l with
  | nil => exact absurd rfl hne
  | cons y ys ih =>
    cases ys with
    | nil => simp [hall y (List.mem_cons_self _ _)]
    | cons z zs =>
      have hmem : y ∈ z :: zs := by
        rw [hall y (List.mem_cons_self _ _),
          ← hall z (List.mem_cons_of_mem _ (List.mem_cons_self _ _))]
        exact List.mem_cons_self _ _
      rw [List.dedup_cons_of_mem hmem]
      exact ih (by simp) (fun x hx => hall x (List.mem_cons_of_mem _ hx))

theorem dedup_two_blocks {α : Type} [DecidableEq α] (l1 l2 : List α) (a b : α)
    (h1 : l1 ≠ []) (h2 : l2 ≠ []) (ha : ∀ x ∈ l1, x = a) (hb : ∀ x ∈ l2, x = b)
    (hab : a ≠ b) : (l1 ++ l2).dedup = [a, b] := by
  induction l1 with
  | nil => exact absurd rfl h1
  | cons x xs ih =>
    have hxa : x = a := ha x (List.mem_cons_self _ _)
    subst hxa
    cases xs with
    | nil =>
      rw [List.singleton_append,
        List.dedup_cons_of_not_mem (fun hc => hab (hb x hc)),
        dedup_of_all_eq l2 b h2 hb]
    | cons z zs =>
      have hmem : x ∈ (z :: zs) ++ l2 := by
        rw [← ha z (List.mem_cons_of_mem _ (List.mem_cons_self _ _))]
        exact List.mem_append_left _ (List.mem_cons_self _ _)
      rw [List.cons_append, List.dedup_cons_of_mem hmem]
      exact ih (by simp) (fun y hy => ha y (List.mem_cons_of_mem _ hy))

theorem flatMap_eq_map_of_singleton {α β : Type} (l : List α) (g : α → List β)
    (f : α → β) (h : ∀ x ∈ l, g x = [f x]) : l.flatMap g = l.map f := by
  induction l with
  | nil => simp
  | cons x xs ih =>
    rw [List.flatMap_cons, List.map_cons, h x (List.mem_cons_self _ _),
      List.singleton_append, ih (fun y hy => h y (List.mem_cons_of_mem _ hy))]

/-- The joined FROM-clause rows of the two-identity store: one row per
participation, identity `a` over `h1s` then identity `b` over `h2s`. -/
theorem twoIdentityDB_baseRows (a b n1 n2 : String) (c : Int) (nm g : String)
    (h1s h2s : List String) (hab : a ≠ b) :
    baseRows (twoIdentityDB a b n1 n2 c nm g h1s h2s) =
      (h1s.map (fun h => ((⟨some a, some n1⟩ : PlayerRow),
        (⟨h, a, none, none, none, none, some 1, 0⟩ : HandPlayerRow),
        (⟨some h, g, 0, none, none, none, none, none, none, none⟩ : HandRow)))) ++
      (h2s.map (fun h => ((⟨some b, some n2⟩ : PlayerRow),
        (⟨h, b, none, none, none, none, some 1, 0⟩ : HandPlayerRow),
        (⟨some h, g, 0, none, none, none, none, none, none, none⟩ : HandRow)))) := by
  have hhands : ∀ x ∈ h1s ++ h2s,
      ((twoIdentityDB a b n1 n2 c nm g h1s h2s).hands.filter
        (fun h => h.id == some x)) =
      [⟨some x, g, 0, none, none, none, none, none, none, none⟩] := by
    intro x hx
    rw [show (twoIdentityDB a b n1 n2 c nm g h1s h2s).hands =
      ((h1s ++ h2s).dedup).map (fun h =>
        (⟨some h, g, 0, none, none, none, none, none, none, none⟩ : HandRow))
      from rfl]
    rw [List.filter_map]
    rw [show ((fun h : HandRow => h.id == some x) ∘ (fun h =>
      (⟨some h, g, 0, none, none, none, none, none, none, none⟩ : HandRow))) =
      (fun hh => hh == x) from rfl]
    rw [filter_beq_of_nodup _ x (List.nodup_dedup _),
      if_pos (List.mem_dedup.mpr hx)]
    rfl
  rw [baseRows]
  rw [show (twoIdentityDB a b n1 n2 c nm g h1s h2s).players =
    [⟨some a, some n1⟩, ⟨some b, some n2⟩] from rfl]
  rw [List.flatMap_cons, List.flatMap_cons, List.flatMap_nil, List.append_nil]
  have hfa : ((twoIdentityDB a b n1 n2 c nm g h1s h2s).hand_players.filter
      (fun hp => (⟨some a, some n1⟩ : PlayerRow).id == some hp.player_id)) =
      h1s.map (fun h => (⟨h, a, none, none, none, none, some 1, 0⟩ : HandPlayerRow)) := by
    rw [show (twoIdentityDB a b n1 n2 c nm g h1s h2s).hand_players =
      ((h1s.map (fun h =>
          (⟨h, a, none, none, none, none, some 1, 0⟩ : HandPlayerRow))) ++
        (h2s.map (fun h =>
          (⟨h, b, none, none, none, none, some 1, 0⟩ : HandPlayerRow)))) from rfl]
    rw [List.filter_append,
      List.filter_eq_self.mpr (by
        intro r hr
        obtain ⟨x, -, hx⟩ := List.mem_map.mp hr
        rw [← hx]
        simp),
      List.filter_eq_nil_iff.mpr (by
        intro r hr
        obtain ⟨x, -, hx⟩ := List.mem_map.mp hr
        rw [← hx]
        simp [hab]),
      List.append_nil]
  have hfb : ((twoIdentityDB a b n1 n2 c nm g h1s h2s).hand_players.filter
      (fun hp => (⟨some b, some n2⟩ : PlayerRow).id == some hp.player_id)) =
      h2s.map (fun h => (⟨h, b, none, none, none, none, some 1, 0⟩ : HandPlayerRow)) := by
    rw [show (twoIdentityDB a b n1 n2 c nm g h1s h2s).hand_players =
      ((h1s.map (fun h =>
          (⟨h, a, none, none, none, none, some 1, 0⟩ : HandPlayerRow))) ++
        (h2s.map (fun h =>
          (⟨h, b, none, none, none, none, some 1, 0⟩ : HandPlayerRow)))) from rfl]
    rw [List.filter_append,
      List.filter_eq_nil_iff.mpr (by
        intro r hr
        obtain ⟨x, -, hx⟩ := List.mem_map.mp hr
        rw [← hx]
        simp [Ne.symm hab]),
      List.filter_eq_self.mpr (by
        intro r hr
        obtain ⟨x, -, hx⟩ := List.mem_map.mp hr
        rw [← hx]
        simp),
      List.nil_append]
  rw [hfa, hfb, List.flatMap_map, List.flatMap_map]
  congr 1
  · apply flatMap_eq_map_of_singleton
    intro x hx
    rw [show ((fun h => (⟨h, a, none, none, none, none, some 1, 0⟩ :
        HandPlayerRow)) x).hand_id = x from rfl]
    rw [hhands x (List.mem_append_left _ hx)]
    rfl
  · apply flatMap_eq_map_of_singleton
    intro x hx
    rw [show ((fun h => (⟨h, b, none, none, none, none, some 1, 0⟩ :
        HandPlayerRow)) x).hand_id = x from rfl]
    rw [hhands x (List.mem_append_right _ hx)]
    rfl

/-- Identity `a`, nickname `n1`, resolves to canonical player `c`. -/
theorem twoIdentityDB_mapped_a (a b n1 n2 : String) (c : Int) (nm g : String)
    (h1s h2s : List String) :
    mappedCanonical (twoIdentityDB a b n1 n2 c nm g h1s h2s)
      ⟨some a, some n1⟩ = some ⟨c, nm⟩ := by
  rw [mappedCanonical]
  rw [show (twoIdentityDB a b n1 n2 c nm g h1s h2s).player_mappings =
    [⟨a, n1, c⟩, ⟨b, n2, c⟩] from rfl]
  rw [List.find?_cons]
  rw [show ((⟨some a, some n1⟩ : PlayerRow).id ==
      some (⟨a, n1, c⟩ : MappingRow).raw_player_id &&
      (⟨some a, some n1⟩ : PlayerRow).name ==
      some (⟨a, n1, c⟩ : MappingRow).nickname) = true from by simp]
  show List.find? (fun x => x.id == (⟨a, n1, c⟩ : MappingRow).canonical_id)
    [(⟨c, nm⟩ : CanonicalRow)] = some ⟨c, nm⟩
  simp

/-- Identity `b`, nickname `n2`, resolves to the same canonical player. -/
theorem twoIdentityDB_mapped_b (a b n1 n2 : String) (c : Int) (nm g : String)
    (h1s h2s : List String) (hab : a ≠ b) :
    mappedCanonical (twoIdentityDB a b n1 n2 c nm g h1s h2s)
      ⟨some b, some n2⟩ = some ⟨c, nm⟩ := by
  rw [mappedCanonical]
  rw [show (twoIdentityDB a b n1 n2 c nm g h1s h2s).player_mappings =
    [⟨a, n1, c⟩, ⟨b, n2, c⟩] from rfl]
  rw [List.find?_cons]
  rw [show ((⟨some b, some n2⟩ : PlayerRow).id ==
      some (⟨a, n1, c⟩ : MappingRow).raw_player_id &&
      (⟨some b, some n2⟩ : PlayerRow).name ==
      some (⟨a, n1, c⟩ : MappingRow).nickname) = false from by
    simp [Ne.symm hab]]
  rw [List.find?_cons]
  rw [show ((⟨some b, some n2⟩ : PlayerRow).id ==
      some (⟨b, n2, c⟩ : MappingRow).raw_player_id &&
      (⟨some b, some n2⟩ : PlayerRow).name ==
      some (⟨b, n2, c⟩ : MappingRow).nickname) = true from by simp]
  show List.find? (fun x => x.id == (⟨b, n2, c⟩ : MappingRow).canonical_id)
    [(⟨c, nm⟩ : CanonicalRow)] = some ⟨c, nm⟩
  simp

/-- C7 (amended): a player with two raw identities mapped to one canonical
player, whose hand sets are disjoint, yields ONE enriched row named by the
canonical player whose hands-played is the sum of the identities' hand
counts, while the raw query yields TWO rows, one per identity, each with
its own count. -/
theorem C7_enriched_vs_raw (a b n1 n2 : String) (c : Int) (nm g : String)
    (h1s h2s : List String) (hab : a ≠ b) (hne1 : h1s ≠ []) (hne2 : h2s ≠ [])
    (hnd1 : h1s.Nodup) (hnd2 : h2s.Nodup) (hdisj : ∀ x ∈ h1s, x ∉ h2s) :
    ((get_player_statistics (twoIdentityDB a b n1 n2 c nm g h1s h2s) true 0).map
        (fun s => (s.name, s.hands_played)) =
      [(some nm, h1s.length + h2s.length)]) ∧
    ((get_player_statistics (twoIdentityDB a b n1 n2 c nm g h1s h2s) false 0).map
        (fun s => (s.key, s.name, s.hands_played)) =
      [(a, some n1, h1s.length), (b, some n2, h2s.length)]) := by
  have hbase := twoIdentityDB_baseRows a b n1 n2 c nm g h1s h2s hab
  obtain ⟨x1, t1, hx1⟩ := List.exists_cons_of_ne_nil hne1
  obtain ⟨x2, t2, hx2⟩ := List.exists_cons_of_ne_nil hne2
  have hkeyA : ∀ (hp : HandPlayerRow) (hr : HandRow),
      rowKey (twoIdentityDB a b n1 n2 c nm g h1s h2s) true
        (⟨some a, some n1⟩, hp, hr) = "canonical_" ++ toString c := by
    intro hp hr
    show (enrichedKey (twoIdentityDB a b n1 n2 c nm g h1s h2s)
      ⟨some a, some n1⟩).getD "" = _
    rw [enrichedKey, twoIdentityDB_mapped_a]
    rfl
  have hkeyB : ∀ (hp : HandPlayerRow) (hr : HandRow),
      rowKey (twoIdentityDB a b n1 n2 c nm g h1s h2s) true
        (⟨some b, some n2⟩, hp, hr) = "canonical_" ++ toString c := by
    intro hp hr
    show (enrichedKey (twoIdentityDB a b n1 n2 c nm g h1s h2s)
      ⟨some b, some n2⟩).getD "" = _
    rw [enrichedKey, twoIdentityDB_mapped_b a b n1 n2 c nm g h1s h2s hab]
    rfl
  have hnameA : displayName (twoIdentityDB a b n1 n2 c nm g h1s h2s) true
      ⟨some a, some n1⟩ = some nm := by
    show (match mappedCanonical (twoIdentityDB a b n1 n2 c nm g h1s h2s)
        ⟨some a, some n1⟩ with
      | some cr => some cr.name
      | none => (⟨some a, some n1⟩ : PlayerRow).name) = some nm
    rw [twoIdentityDB_mapped_a]
  have hnodup12 : (h1s ++ h2s).Nodup := List.nodup_append.mpr ⟨hnd1, hnd2, hdisj⟩
  constructor
  · have hq : get_player_statistics (twoIdentityDB a b n1 n2 c nm g h1s h2s)
        true 0 =
        (((baseRows (twoIdentityDB a b n1 n2 c nm g h1s h2s)).map
          (rowKey (twoIdentityDB a b n1 n2 c nm g h1s h2s) true)).dedup).map
          (statsForKey (twoIdentityDB a b n1 n2 c nm g h1s h2s) true
            (baseRows (twoIdentityDB a b n1 n2 c nm g h1s h2s))) := rfl
    have hkm : ((baseRows (twoIdentityDB a b n1 n2 c nm g h1s h2s)).map
        (rowKey (twoIdentityDB a b n1 n2 c nm g h1s h2s) true)) =
        (h1s.map (fun _ => "canonical_" ++ toString c)) ++
        (h2s.map (fun _ => "canonical_" ++ toString c)) := by
      rw [hbase, List.map_append, List.map_map, List.map_map]
      congr 1
      · exact List.map_congr_left (fun x hx => hkeyA _ _)
      · exact List.map_congr_left (fun x hx => hkeyB _ _)
    have hded : ((h1s.map (fun _ => "canonical_" ++ toString c)) ++
        (h2s.map (fun _ => "canonical_" ++ toString c))).dedup =
        ["canonical_" ++ toString c] := by
      refine dedup_of_all_eq _ _ ?_ ?_
      · rw [hx1]
        simp
      · intro x hx
        rcases List.mem_append.mp hx with h3 | h3
        · obtain ⟨y, -, hy⟩ := List.mem_map.mp h3
          exact hy.symm
        · obtain ⟨y, -, hy⟩ := List.mem_map.mp h3
          exact hy.symm
    have hgrp : ((baseRows (twoIdentityDB a b n1 n2 c nm g h1s h2s)).filter
        (fun r => rowKey (twoIdentityDB a b n1 n2 c nm g h1s h2s) true r ==
          ("canonical_" ++ toString c))) =
        baseRows (twoIdentityDB a b n1 n2 c nm g h1s h2s) := by
      refine List.filter_eq_self.mpr ?_
      intro r hr
      rw [hbase] at hr
      rcases List.mem_append.mp hr with h3 | h3
      · obtain ⟨y, -, hy⟩ := List.mem_map.mp h3
        rw [← hy, hkeyA]
        simp
      · obtain ⟨y, -, hy⟩ := List.mem_map.mp h3
        rw [← hy, hkeyB]
        simp
    have hmapids : ((baseRows (twoIdentityDB a b n1 n2 c nm g h1s h2s)).map
        (fun r => r.2.1.hand_id)) = h1s ++ h2s := by
      rw [hbase, List.map_append, List.map_map, List.map_map]
      congr 1
      · exact (List.map_congr_left (fun x hx => rfl)).trans (List.map_id' h1s)
      · exact (List.map_congr_left (fun x hx => rfl)).trans (List.map_id' h2s)
    have hhead : (baseRows (twoIdentityDB a b n1 n2 c nm g h1s h2s)).head? =
        some (⟨some a, some n1⟩,
          ⟨x1, a, none, none, none, none, some 1, 0⟩,
          ⟨some x1, g, 0, none, none, none, none, none, none, none⟩) := by
      rw [hbase, hx1, List.map_cons, List.cons_append, List.head?_cons]
    rw [hq, hkm, hded, List.map_cons, List.map_nil, List.map_cons, List.map_nil]
    simp only [statsForKey]
    rw [hgrp, hmapids, List.dedup_eq_self.mpr hnodup12, List.length_append,
      hhead, Option.map_some']
    rw [show displayName (twoIdentityDB a b n1 n2 c nm g h1s h2s) true
      (⟨some a, some n1⟩,
        (⟨x1, a, none, none, none, none, some 1, 0⟩ : HandPlayerRow),
        (⟨some x1, g, 0, none, none, none, none, none, none, none⟩ : HandRow)).1 =
      some nm from hnameA]
    rfl
  · have hq : get_player_statistics (twoIdentityDB a b n1 n2 c nm g h1s h2s)
        false 0 =
        (((baseRows (twoIdentityDB a b n1 n2 c nm g h1s h2s)).map
          (rowKey (twoIdentityDB a b n1 n2 c nm g h1s h2s) false)).dedup).map
          (statsForKey (twoIdentityDB a b n1 n2 c nm g h1s h2s) false
            (baseRows (twoIdentityDB a b n1 n2 c nm g h1s h2s))) := rfl
    have hkm : ((baseRows (twoIdentityDB a b n1 n2 c nm g h1s h2s)).map
        (rowKey (twoIdentityDB a b n1 n2 c nm g h1s h2s) false)) =
        (h1s.map (fun _ => a)) ++ (h2s.map (fun _ => b)) := by
      rw [hbase, List.map_append, List.map_map, List.map_map]
      congr 1
    have hded : ((h1s.map (fun _ => a)) ++ (h2s.map (fun _ => b))).dedup =
        [a, b] := by
      refine dedup_two_blocks _ _ a b ?_ ?_ ?_ ?_ hab
      · rw [hx1]; simp
      · rw [hx2]; simp
      · intro x hx
        obtain ⟨y, -, hy⟩ := List.mem_map.mp hx
        exact hy.symm
      · intro x hx
        obtain ⟨y, -, hy⟩ := List.mem_map.mp hx
        exact hy.symm
    have hgrpa : ((baseRows (twoIdentityDB a b n1 n2 c nm g h1s h2s)).filter
        (fun r => rowKey (twoIdentityDB a b n1 n2 c nm g h1s h2s) false r == a)) =
        h1s.map (fun h => ((⟨some a, some n1⟩ : PlayerRow),
          (⟨h, a, none, none, none, none, some 1, 0⟩ : HandPlayerRow),
          (⟨some h, g, 0, none, none, none, none, none, none, none⟩ : HandRow))) := by
      rw [hbase, List.filter_append]
      rw [List.filter_eq_self.mpr (by
          intro r hr
          obtain ⟨y, -, hy⟩ := List.mem_map.mp hr
          rw [← hy]
          simp [rowKey]),
        List.filter_eq_nil_iff.mpr (by
          intro r hr
          obtain ⟨y, -, hy⟩ := List.mem_map.mp hr
          rw [← hy]
          simp [rowKey, Ne.symm hab]),
        List.append_nil]
    have hgrpb : ((baseRows (twoIdentityDB a b n1 n2 c nm g h1s h2s)).filter
        (fun r => rowKey (twoIdentityDB a b n1 n2 c nm g h1s h2s) false r == b)) =
        h2s.map (fun h => ((⟨some b, some n2⟩ : PlayerRow),
          (⟨h, b, none, none, none, none, some 1, 0⟩ : HandPlayerRow),
          (⟨some h, g, 0, none, none, none, none, none, none, none⟩ : HandRow))) := by
      rw [hbase, List.filter_append]
      rw [List.filter_eq_nil_iff.mpr (by
          intro r hr
          obtain ⟨y, -, hy⟩ := List.mem_map.mp hr
          rw [← hy]
          simp [rowKey, hab]),
        List.filter_eq_self.mpr (by
          intro r hr
          obtain ⟨y, -, hy⟩ := List.mem_map.mp hr
          rw [← hy]
          simp [rowKey]),
        List.nil_append]
    have hidsa : ((h1s.map (fun h => ((⟨some a, some n1⟩ : PlayerRow),
        (⟨h, a, none, none, none, none, some 1, 0⟩ : HandPlayerRow),
        (⟨some h, g, 0, none, none, none, none, none, none, none⟩ : HandRow)))).map
        (fun r => r.2.1.hand_id)) = h1s := by
      rw [List.map_map]
      exact (List.map_congr_left (fun x hx => rfl)).trans (List.map_id' h1s)
    have hidsb : ((h2s.map (fun h => ((⟨some b, some n2⟩ : PlayerRow),
        (⟨h, b, none, none, none, none, some 1, 0⟩ : HandPlayerRow),
        (⟨some h, g, 0, none, none, none, none, none, none, none⟩ : HandRow)))).map
        (fun r => r.2.1.hand_id)) = h2s := by
      rw [List.map_map]
      exact (List.map_congr_left (fun x hx => rfl)).trans (List.map_id' h2s)
    rw [hq, hkm, hded]
    simp only [List.map_cons, List.map_nil, statsForKey]
    rw [hgrpa, hgrpb, hidsa, hidsb,
      List.dedup_eq_self.mpr hnd1, List.dedup_eq_self.mpr hnd2]
    rw [hx1, hx2, List.map_cons, List.map_cons, List.head?_cons, List.head?_cons,
      Option.map_some', Option.map_some']
    rfl

/-- Witness for C7: a concrete store where identity a plays hands h1, h2 and
identity b plays hand h3; enriched gives one row with 3 hands, raw gives
two rows with 2 and 1. -/
theorem C7_witness :
    ((get_player_statistics (twoIdentityDB "a" "b" "x" "y" 1 "P" "g"
        ["h1", "h2"] ["h3"]) true 0).map (fun s => (s.name, s.hands_played)) =
      [(some "P", ["h1", "h2"].length + ["h3"].length)]) ∧
    ((get_player_statistics (twoIdentityDB "a" "b" "x" "y" 1 "P" "g"
        ["h1", "h2"] ["h3"]) false 0).map
        (fun s => (s.key, s.name, s.hands_played)) =
      [("a", some "x", ["h1", "h2"].length), ("b", some "y", ["h3"].length)]) :=
  C7_enriched_vs_raw "a" "b" "x" "y" 1 "P" "g" ["h1", "h2"] ["h3"]
    (by decide) (by decide) (by decide) (by decide) (by decide)
    (by decide)

/-- Counterexample to the unamended C7: when the two mapped identities
appear in the SAME hand, the enriched row counts that hand once
(COUNT(DISTINCT hand_id) = 1), not once per identity, so the enriched
hands-played is NOT the sum of the per-identity counts (1 + 1 = 2). -/
theorem C7_counterexample :
    ((get_player_statistics (twoIdentityDB "a" "b" "x" "y" 1 "P" "g"
        ["h"] ["h"]) true 0).map (fun s => s.hands_played) = [1]) ∧
    ((get_player_statistics (twoIdentityDB "a" "b" "x" "y" 1 "P" "g"
        ["h"] ["h"]) false 0).map (fun s => s.hands_played) = [1, 1]) ∧
    (1 : Nat) ≠ 1 + 1 := by
  exact ⟨by decide, by decide, by decide⟩

end Poker
